import Mathlib

/-!
# foo_openlyrics: the asynchronous lyric search and the lyric record

A shallow embedding of `src/lyric_data.h`, `src/lyric_data.cpp` and
`src/lyric_search.cpp`.

* `std::string` is a list of characters, `size_t` indices are naturals
  (no string here can approach `2^64` characters, so no index wraps).
* `GUID` is an opaque identifier; its zero value `{}` is `0`.
* `double` is its IEEE-754 binary64 bit pattern.
* `TCHAR*` is the address of the buffer it points to.
* C++ exceptions are explicit results; the two `catch` shapes used by the
  code (`const std::exception&` and `...`) are told apart by `Exn`.
* The worker `run_async` is a function from the environment of one run
  (configuration, adapters, what each source answers, when another thread
  requests cancellation) to the sequence of externally visible events it
  performs and the way it ends.
-/

namespace OpenLyrics

/-! ## Data model (`lyric_data.h`) -/

/-- The type `std::string`, as the list of its characters. -/
abbrev CppString := List Char

/-- The type `GUID`; value-initialisation `{}` yields `0`. -/
abbrev GUID := Nat

/-- The type `double`, as an IEEE-754 binary64 bit pattern. -/
abbrev Double := Nat

/-- The constant `DBL_MAX`: sign 0, exponent `0x7FE`, mantissa all ones. -/
def DBL_MAX : Double := 0x7FEFFFFFFFFFFFFF

/-- IEEE-754: exponent all ones and a non-zero mantissa. -/
def Double.isNaN (x : Double) : Bool :=
  (x / 2 ^ 52) % 2 ^ 11 == 2047 && x % 2 ^ 52 != 0

/-- IEEE-754: positive or negative zero. -/
def Double.isZero (x : Double) : Bool :=
  x % 2 ^ 63 == 0

/-- The C++ operator `a != b` on doubles: true when either side is a NaN,
false for two zeros of any sign, otherwise a comparison of the patterns. -/
def Double.ne (a b : Double) : Bool :=
  Double.isNaN a || Double.isNaN b ||
    !((Double.isZero a && Double.isZero b) || a == b)

/-- Raw (unparsed) lyric data: `struct LyricDataRaw`. -/
structure LyricDataRaw where
  source_id : GUID
  text : CppString
deriving DecidableEq, Repr

/-- One parsed line: `struct LyricDataLine`. The field `text` is the address
held by the `TCHAR*`, that is, the identity of the owned buffer. -/
structure LyricDataLine where
  text : Nat
  text_length : Nat
  timestamp : Double
deriving DecidableEq, Repr

/-- Parsed lyric data: `struct LyricData : LyricDataRaw`. -/
structure LyricData extends LyricDataRaw where
  tags : List CppString
  lines : List LyricDataLine
deriving DecidableEq, Repr

namespace LyricData

/-- The value produced by `new LyricData()` / `LyricData() = default` with
value-initialisation: zero `source_id`, empty text, tags and lines. -/
def empty : LyricData :=
  { source_id := 0, text := [], tags := [], lines := [] }

/-- The method `bool LyricData::IsTimestamped()`:
`return !lines.empty() && (lines[0].timestamp != DBL_MAX);` -/
def IsTimestamped (d : LyricData) : Bool :=
  !d.lines.isEmpty &&
    (match d.lines[0]? with
     | some line => Double.ne line.timestamp DBL_MAX
     | none => false)

/-- The method `bool LyricData::IsEmpty()`: `return lines.empty();` -/
def IsEmpty (d : LyricData) : Bool :=
  d.lines.isEmpty

/-- The operator `void LyricData::operator =(LyricData&& other)` for two distinct objects.
Returns the new `*this` and the new `other`. A moved-from `std::vector` is
left empty (its storage, with every element, now belongs to the target). -/
def move_assign (this other : LyricData) : LyricData × LyricData :=
  -- source_id = other.source_id;
  let this := { this with source_id := other.source_id }
  -- text = other.text;
  let this := { this with text := other.text }
  -- tags = std::move(other.tags);
  let this := { this with tags := other.tags }
  let other := { other with tags := [] }
  -- lines = std::move(other.lines);
  let this := { this with lines := other.lines }
  let other := { other with lines := [] }
  -- other.source_id = {};
  let other := { other with source_id := 0 }
  -- other.text.clear();
  let other := { other with text := [] }
  (this, other)

/-- The constructor `LyricData::LyricData(LyricData&& other) { *this = std::move(other); }`.
The members `tags`, `lines` and `text` of the new object start
default-constructed; `source_id` has no initialiser, so its prior content
`indeterminate` is arbitrary. -/
def move_construct (indeterminate : GUID) (other : LyricData) : LyricData × LyricData :=
  move_assign { source_id := indeterminate, text := [], tags := [], lines := [] } other

/-- The buffers a record owns: what `~LyricData()` passes to `delete[]`,
in order. -/
def owned_buffers (d : LyricData) : List Nat :=
  d.lines.map (fun line => line.text)

end LyricData

/-! ## `ensure_windows_newlines` (`lyric_search.cpp`) -/

/-- Index of the first occurrence of `ch` in `str`, if any. -/
def find_first : CppString → Char → Option Nat
  | [], _ => none
  | c :: cs, ch => if c = ch then some 0 else (find_first cs ch).map (· + 1)

/-- The call `str.find(ch, pos)`: the least index `≥ pos` that holds `ch`;
`none` stands for `npos` (`pfc::infinite_size`). -/
def find (str : CppString) (ch : Char) (pos : Nat) : Option Nat :=
  (find_first (str.drop pos) ch).map (· + pos)

/-- The call `str.insert(index, 1, ch)`. -/
def insert (str : CppString) (index : Nat) (ch : Char) : CppString :=
  str.take index ++ ch :: str.drop index

/-- The `while(true)` loop of `ensure_windows_newlines`, one iteration per
unit of fuel; `none` when the fuel runs out before the `break`. The counter
`replace_count` is written but never read and is left out. -/
def ensure_windows_newlines_loop : Nat → CppString → Nat → Option CppString
  | 0, _, _ => none
  | fuel + 1, str, prev_index =>
    match find str '\n' prev_index with
    | none => some str
    | some next_index =>
      if next_index = 0 ∨ str[next_index - 1]? ≠ some '\r' then
        ensure_windows_newlines_loop fuel (insert str next_index '\r') (next_index + 1)
      else
        ensure_windows_newlines_loop fuel str (next_index + 1)

/-- The function `static void ensure_windows_newlines(std::string& str)`, returning the
final content of `str`. Two iterations per character and one more always
reach the `break` (see `ensure_windows_newlines_loop_eq`). -/
def ensure_windows_newlines (str : CppString) : Option CppString :=
  ensure_windows_newlines_loop (2 * str.length + 1) str 0

/-- Specification of the normalisation, in the words of the claim: copy the
input, putting one `'\r'` in front of each `'\n'` whose predecessor in the
input is not `'\r'`. `prev_is_cr` tells whether the character before the
current position is `'\r'`. -/
def insert_missing_cr (prev_is_cr : Bool) : CppString → CppString
  | [] => []
  | c :: cs =>
    if c = '\n' ∧ prev_is_cr = false then
      '\r' :: '\n' :: insert_missing_cr false cs
    else
      c :: insert_missing_cr (c == '\r') cs

/-- Every `'\n'` of the string is immediately preceded by `'\r'`. -/
def windows_newlines (str : CppString) : Prop :=
  ∀ i, str[i]? = some '\n' → ∃ j, i = j + 1 ∧ str[j]? = some '\r'

/-- Recursive form of `windows_newlines`, relative to the character that
precedes the string. -/
def newlines_ok : Bool → CppString → Bool
  | _, [] => true
  | prev_is_cr, c :: cs => (c != '\n' || prev_is_cr) && newlines_ok (c == '\r') cs

/-! ## The worker `LyricSearch::run_async` (`lyric_search.cpp`) -/

/-- A thrown object, as far as the handlers of `run_async` can tell:
`std_exception` is caught by `catch(const std::exception&)` (and by
`catch(...)`), `unrecognised` only by `catch(...)`. -/
inductive Exn
  | std_exception
  | unrecognised
deriving DecidableEq, Repr

/-- How one call `source->query(m_track, m_abort)` ends. -/
inductive QueryOutcome
  | returns (raw : LyricDataRaw)
  | throws (e : Exn)
deriving DecidableEq, Repr

/-- A registered source (`LyricSourceBase*`, non-null as asserted on line
90), with what its `query` answers in this run if it is called. -/
structure LyricSourceBase where
  id : GUID
  is_local : Bool
  query : QueryOutcome
deriving DecidableEq, Repr

/-- Modelled from the spec: `enum class SaveMethod` is declared in
`preferences.h`, which is not among the sources; the spec lists the save
methods none, config-directory and tag-embedding. `unrecognised` is any
other value of the underlying integer, the `default:` label of the switch. -/
inductive SaveMethod
  | None
  | ConfigDirectory
  | Id3Tag
  | unrecognised (value : Nat)
deriving DecidableEq, Repr

/-- Severity of a `LOG_INFO` / `LOG_WARN` / `LOG_ERROR` statement. -/
inductive LogLevel
  | info
  | warn
  | error
deriving DecidableEq, Repr

/-- The externally visible actions of the worker. A `log` carries the line
of `lyric_search.cpp` that holds the logging statement. -/
inductive Event
  /-- A `LOG_*` statement. -/
  | log (level : LogLevel) (line : Nat)
  /-- The call `source->query(m_track, m_abort)` of loop iteration `index`. -/
  | query (index : Nat) (source : GUID)
  /-- The call `sources::localfiles::SaveLyrics(m_track, is_timestamped, text, m_abort)`. -/
  | save (is_timestamped : Bool) (text : CppString)
  /-- The assignment `m_lyrics = lyric_data` inside the critical section. -/
  | publish (data : LyricData)
  /-- The call `SetEvent(m_complete)`. -/
  | set_event
deriving DecidableEq, Repr

/-- How the call of `run_async` ends. -/
inductive Termination
  /-- Control reaches the closing brace. -/
  | returned
  /-- An exception leaves `run_async`. -/
  | uncaught (e : Exn)
  /-- An `assert` on the given line fails (a diagnostic, then `abort()`). -/
  | assertion_failed (line : Nat)
  /-- The loop of `ensure_windows_newlines` did not reach its `break`. -/
  | out_of_fuel
deriving DecidableEq, Repr

/-- Everything outside `run_async` that one run depends on. -/
structure Env where
  /-- Whether another thread has called `m_abort.abort()` since the previous
  check, when loop iteration `i` reaches `m_abort.check()`. -/
  abort_requested : Nat → Bool
  /-- The Format Adapter `parsers::lrc::parse`. -/
  parse : LyricDataRaw → LyricData
  /-- The Format Adapter `parsers::lrc::shrink_text`. -/
  shrink_text : LyricData → CppString
  /-- The setting `preferences::get_autosave_enabled()`. -/
  autosave_enabled : Bool
  /-- The setting `preferences::get_save_method()`. -/
  save_method : SaveMethod
  /-- The Persistence Adapter `sources::localfiles::SaveLyrics`: `none` when
  the call returns, `some e` when it throws `e`. -/
  SaveLyrics : Bool → CppString → Option Exn
  /-- Whether `assert` is live (the build does not define `NDEBUG`). -/
  asserts_enabled : Bool

/-- State of the `for` loop when it is left. -/
structure LoopResult where
  trace : List Event
  success_source : Option LyricSourceBase
  lyric_data_raw : LyricDataRaw
deriving DecidableEq, Repr

/-- The `for(GUID source_id : preferences::get_active_sources())` loop, from
iteration `index` on, with the abort flag `m_abort` and the current value of
`lyric_data_raw`.

`m_abort.check()` throws `exception_aborted` when the flag is set; the flag
is only ever set. The exception is caught by the first handler, which logs
and falls through to the end of the loop body, so the loop goes on to the
next source (and the check throws again). -/
def search_loop (env : Env) :
    List LyricSourceBase → Nat → Bool → LyricDataRaw → LoopResult
  | [], _, _, lyric_data_raw =>
    { trace := [], success_source := none, lyric_data_raw := lyric_data_raw }
  | source :: rest, index, m_abort, lyric_data_raw =>
    if m_abort || env.abort_requested index then
      -- m_abort.check() throws; catch(const std::exception&)
      let r := search_loop env rest (index + 1) true lyric_data_raw
      { r with trace := .log .error 107 :: .log .info 114 :: r.trace }
    else
      match source.query with
      | .returns result =>
        -- lyric_data_raw = source->query(m_track, m_abort);
        if !result.text.isEmpty then
          -- success_source = source; break;
          { trace := [.query index source.id, .log .info 101],
            success_source := some source,
            lyric_data_raw := result }
        else
          let r := search_loop env rest (index + 1) false result
          { r with trace := .query index source.id :: .log .info 114 :: r.trace }
      | .throws .std_exception =>
        let r := search_loop env rest (index + 1) false lyric_data_raw
        { r with trace :=
            .query index source.id :: .log .error 107 :: .log .info 114 :: r.trace }
      | .throws .unrecognised =>
        let r := search_loop env rest (index + 1) false lyric_data_raw
        { r with trace :=
            .query index source.id :: .log .error 111 :: .log .info 114 :: r.trace }

/-- Lines 82-115: the loop run from the first source, with a fresh abort
flag and `LyricDataRaw lyric_data_raw = {}`. -/
def search (env : Env) (sources : List LyricSourceBase) : LoopResult :=
  search_loop env sources 0 false { source_id := 0, text := [] }

/-- Lines 118-122: the record `*lyric_data` after the parsing step, given
`lyric_data_raw` with its text already normalised. -/
def parse_step (env : Env) (lyric_data_raw : LyricDataRaw) : List Event × LyricData :=
  -- LyricData* lyric_data = new LyricData();
  let lyric_data := LyricData.empty
  if !lyric_data_raw.text.isEmpty then
    -- *lyric_data = parsers::lrc::parse(lyric_data_raw);
    ([.log .info 120], (LyricData.move_assign lyric_data (env.parse lyric_data_raw)).1)
  else
    ([], lyric_data)

/-- Lines 124-168: the `try` block around saving. The second component is
`some t` when control does not reach line 170. -/
def save_step (env : Env) (lyric_data : LyricData)
    (success_source : Option LyricSourceBase) : List Event × Option Termination :=
  if !lyric_data.IsEmpty && env.autosave_enabled &&
      (match success_source with
       | some source => !source.is_local
       | none => false) then
    match env.save_method with
    | .ConfigDirectory =>
      let call (is_timestamped : Bool) (text : CppString) : List Event × Option Termination :=
        match env.SaveLyrics is_timestamped text with
        | none => ([.save is_timestamped text], none)
        | some .std_exception => ([.save is_timestamped text, .log .error 167], none)
        | some .unrecognised => ([.save is_timestamped text], some (.uncaught .unrecognised))
      if lyric_data.IsTimestamped then
        call true (env.shrink_text lyric_data)
      else
        call false lyric_data.text
    | .Id3Tag =>
      ([.log .warn 152], if env.asserts_enabled then some (.assertion_failed 153) else none)
    | .None => ([], none)
    | .unrecognised _ =>
      ([.log .warn 159], if env.asserts_enabled then some (.assertion_failed 160) else none)
  else
    ([], none)

/-- Result of one call of `run_async`. -/
structure Result where
  trace : List Event
  termination : Termination
deriving DecidableEq, Repr

/-- The worker `void LyricSearch::run_async()`. -/
def run_async (env : Env) (sources : List LyricSourceBase) : Result :=
  let loop := search env sources
  -- ensure_windows_newlines(lyric_data_raw.text);
  match ensure_windows_newlines loop.lyric_data_raw.text with
  | none => { trace := loop.trace, termination := .out_of_fuel }
  | some text =>
    let lyric_data_raw := { loop.lyric_data_raw with text := text }
    let parsed := parse_step env lyric_data_raw
    let saved := save_step env parsed.2 loop.success_source
    match saved.2 with
    | some t => { trace := loop.trace ++ parsed.1 ++ saved.1, termination := t }
    | none =>
      { trace := loop.trace ++ parsed.1 ++ saved.1 ++
          [.publish parsed.2, .set_event, .log .info 176],
        termination := .returned }

/-- The fields of the session object that the worker writes. -/
structure LyricSearch where
  /-- The slot `LyricData* m_lyrics`; `none` is `nullptr`. -/
  m_lyrics : Option LyricData
  /-- Whether the manual-reset event `m_complete` is signalled. -/
  m_complete : Bool
deriving DecidableEq, Repr

namespace LyricSearch

/-- The constructor: `m_lyrics(nullptr)` and
`CreateEvent(nullptr, TRUE, FALSE, nullptr)` (initially unsignalled). -/
def init : LyricSearch :=
  { m_lyrics := none, m_complete := false }

/-- Effect of one action of the worker on the session object. -/
def apply (s : LyricSearch) : Event → LyricSearch
  | .publish data => { s with m_lyrics := some data }
  | .set_event => { s with m_complete := true }
  | _ => s

/-- The session object once the worker has performed `events`. -/
def after (events : List Event) : LyricSearch :=
  events.foldl apply init

/-- The accessor `LyricData* LyricSearch::get_result()`. -/
def get_result (s : LyricSearch) : Option LyricData :=
  s.m_lyrics

end LyricSearch

/-- The calls of `query`, in order of occurrence: loop iteration and the
identifier of the source called. -/
def queries (trace : List Event) : List (Nat × GUID) :=
  trace.filterMap fun
    | .query index source => some (index, source)
    | _ => none

/-- Loop iterations in which a source was queried, in order of occurrence. -/
def queried (trace : List Event) : List Nat :=
  (queries trace).map Prod.fst

/-- Arguments of the calls of `SaveLyrics`, in order of occurrence. -/
def saves (trace : List Event) : List (Bool × CppString) :=
  trace.filterMap fun
    | .save is_timestamped text => some (is_timestamped, text)
    | _ => none

/-- Records assigned to `m_lyrics`, in order of occurrence. -/
def published (trace : List Event) : List LyricData :=
  trace.filterMap fun
    | .publish data => some data
    | _ => none

/-- Number of calls of `SetEvent(m_complete)`. -/
def completions (trace : List Event) : Nat :=
  trace.count .set_event

/-- Source lines of the `LOG_WARN` statements executed, in order. -/
def warnings (trace : List Event) : List Nat :=
  trace.filterMap fun
    | .log .warn line => some line
    | _ => none

/-- The condition of the `if` on lines 126-127. -/
def save_gate (env : Env) (lyric_data : LyricData)
    (success_source : Option LyricSourceBase) : Prop :=
  lyric_data.IsEmpty = false ∧ env.autosave_enabled = true ∧
    ∃ source, success_source = some source ∧ source.is_local = false

/-- The record held by `*lyric_data` when line 124 is reached. -/
def working_record (env : Env) (sources : List LyricSourceBase) : LyricData :=
  (parse_step env
    { (search env sources).lyric_data_raw with
      text := insert_missing_cr false (search env sources).lyric_data_raw.text }).2

/-- The run returns after exactly one publication, of `d`, followed by exactly
one completion signal: the trace is some `pre` without publication or signal,
then `m_lyrics = lyric_data`, `SetEvent(m_complete)` and the final log line;
`get_result()` yields null after every prefix of the trace that stops short
of the publication and `d` after every longer one; the event ends up
signalled. -/
def publishes_once (r : Result) (d : LyricData) : Prop :=
  r.termination = .returned ∧ published r.trace = [d] ∧ completions r.trace = 1 ∧
  ∃ pre, r.trace = pre ++ [.publish d, .set_event, .log .info 176] ∧
    published pre = [] ∧ completions pre = 0 ∧
    (∀ n, (LyricSearch.after (r.trace.take n)).get_result
      = if n ≤ pre.length then none else some d) ∧
    (LyricSearch.after r.trace).m_complete = true

/-! ## Sample environment, used to instantiate the results below -/

/-- A Format Adapter that keeps `source_id` and `text` and yields a single
line with timestamp `0.0`. -/
def sample_parse (raw : LyricDataRaw) : LyricData :=
  { source_id := raw.source_id, text := raw.text, tags := [],
    lines := [{ text := 4096, text_length := raw.text.length, timestamp := 0 }] }

/-- A Format Adapter that yields a single line without timestamp. -/
def sample_parse_plain (raw : LyricDataRaw) : LyricData :=
  { source_id := raw.source_id, text := raw.text, tags := [],
    lines := [{ text := 4096, text_length := raw.text.length, timestamp := DBL_MAX }] }

/-- No cancellation, autosave to the configuration directory, a save that
succeeds, assertions live. -/
def sample_env : Env :=
  { abort_requested := fun _ => false
    parse := sample_parse
    shrink_text := fun d => d.text.filter (fun c => c != '\r')
    autosave_enabled := true
    save_method := .ConfigDirectory
    SaveLyrics := fun _ _ => none
    asserts_enabled := true }

/-- A remote source whose query throws something that is not a
`std::exception`. -/
def source_A : LyricSourceBase :=
  { id := 1, is_local := false, query := .throws .unrecognised }

/-- A remote source that answers empty text. -/
def source_B : LyricSourceBase :=
  { id := 2, is_local := false, query := .returns { source_id := 2, text := [] } }

/-- A remote source that answers two lines separated by a bare `'\n'`. -/
def source_C : LyricSourceBase :=
  { id := 3, is_local := false,
    query := .returns { source_id := 3, text := ['a', '\n', 'b'] } }

/-! ## Lemmas: the newline loop -/

theorem find_append_length (pre suf : CppString) (ch : Char) :
    find (pre ++ suf) ch pre.length = (find_first suf ch).map (· + pre.length) := by
  simp [find]

theorem find_skip (pre cs : CppString) (c ch : Char) (h : c ≠ ch) :
    find (pre ++ c :: cs) ch pre.length = find (pre ++ c :: cs) ch (pre.length + 1) := by
  have e : pre ++ c :: cs = (pre ++ [c]) ++ cs := by simp
  have l : pre.length + 1 = (pre ++ [c]).length := by simp
  rw [find_append_length]
  conv_rhs => rw [e, l, find_append_length]
  simp only [find_first, if_neg h, List.length_append, List.length_singleton, Option.map_map]
  congr 1
  funext k
  simp only [Function.comp]
  omega

theorem find_hit (pre cs : CppString) (ch : Char) :
    find (pre ++ ch :: cs) ch pre.length = some pre.length := by
  rw [find_append_length]
  simp [find_first]

theorem find_end (pre : CppString) (ch : Char) :
    find pre ch pre.length = none := by
  simp [find, find_first]

theorem loop_congr_find (fuel : Nat) (str : CppString) (p q : Nat)
    (h : find str '\n' p = find str '\n' q) :
    ensure_windows_newlines_loop (fuel + 1) str p = ensure_windows_newlines_loop (fuel + 1) str q := by
  simp only [ensure_windows_newlines_loop, h]

theorem getElem?_pred_length (pre suf : CppString) (h : pre ≠ []) :
    (pre ++ suf)[pre.length - 1]? = pre.getLast? := by
  have hl : 0 < pre.length := List.length_pos.mpr h
  rw [List.getElem?_append_left (by omega), List.getLast?_eq_getElem?]

/-- One pass over a newline that already follows a carriage return. -/
theorem loop_step_keep (fuel : Nat) (pre cs : CppString)
    (h : pre.getLast? = some '\r') :
    ensure_windows_newlines_loop (fuel + 1) (pre ++ '\n' :: cs) pre.length
      = ensure_windows_newlines_loop fuel ((pre ++ ['\n']) ++ cs) (pre ++ ['\n']).length := by
  have hne : pre ≠ [] := by
    intro h0; subst h0; simp at h
  have hl : 0 < pre.length := List.length_pos.mpr hne
  have e : (pre ++ ['\n']) ++ cs = pre ++ '\n' :: cs := by simp
  rw [e]
  simp only [ensure_windows_newlines_loop, find_hit, getElem?_pred_length pre _ hne, h]
  simp [Nat.ne_of_gt hl]

/-- One pass over a newline that lacks its carriage return: it is inserted. -/
theorem loop_step_insert (fuel : Nat) (pre cs : CppString)
    (h : pre.getLast? ≠ some '\r') :
    ensure_windows_newlines_loop (fuel + 1) (pre ++ '\n' :: cs) pre.length
      = ensure_windows_newlines_loop fuel ((pre ++ ['\r']) ++ '\n' :: cs) (pre ++ ['\r']).length := by
  have e : (pre ++ ['\r']) ++ '\n' :: cs = pre ++ '\r' :: '\n' :: cs := by simp
  rw [e]
  simp only [ensure_windows_newlines_loop, find_hit]
  by_cases hne : pre = []
  · subst hne
    simp [insert]
  · rw [getElem?_pred_length pre _ hne]
    simp [h, insert]

theorem ensure_windows_newlines_loop_eq (suf : CppString) :
    ∀ (pre : CppString) (fuel : Nat), 2 * suf.count '\n' + 1 ≤ fuel →
      ensure_windows_newlines_loop fuel (pre ++ suf) pre.length
        = some (pre ++ insert_missing_cr (pre.getLast? == some '\r') suf) := by
  induction suf with
  | nil =>
    intro pre fuel hf
    obtain ⟨f, rfl⟩ : ∃ f, fuel = f + 1 := ⟨fuel - 1, by omega⟩
    simp [ensure_windows_newlines_loop, find_end, insert_missing_cr]
  | cons c cs ih =>
    intro pre fuel hf
    obtain ⟨f, rfl⟩ : ∃ f, fuel = f + 1 := ⟨fuel - 1, by omega⟩
    by_cases hc : c = '\n'
    · subst hc
      have hcount : 2 * cs.count '\n' + 2 ≤ f := by
        simp [List.count_cons] at hf; omega
      by_cases hcr : pre.getLast? = some '\r'
      · rw [loop_step_keep f pre cs hcr, ih _ f (by omega)]
        simp [insert_missing_cr, hcr]
      · obtain ⟨g, rfl⟩ : ∃ g, f = g + 1 := ⟨f - 1, by omega⟩
        rw [loop_step_insert (g + 1) pre cs hcr,
          loop_step_keep g (pre ++ ['\r']) cs (by simp), ih _ g (by omega)]
        simp [insert_missing_cr, hcr]
    · have e : pre ++ c :: cs = (pre ++ [c]) ++ cs := by simp
      have l : pre.length + 1 = (pre ++ [c]).length := by simp
      rw [loop_congr_find f _ _ _ (find_skip pre cs c '\n' hc), e, l,
        ih (pre ++ [c]) (f + 1) (by simpa [List.count_cons, hc] using hf)]
      simp [insert_missing_cr, hc]

theorem ensure_windows_newlines_eq (str : CppString) :
    ensure_windows_newlines str = some (insert_missing_cr false str) := by
  have h := ensure_windows_newlines_loop_eq str [] (2 * str.length + 1)
    (by have := List.count_le_length '\n' str; omega)
  simpa [ensure_windows_newlines] using h

theorem newlines_ok_iff (str : CppString) :
    ∀ b : Bool, newlines_ok b str = true ↔
      ∀ i, str[i]? = some '\n' → (i = 0 ∧ b = true) ∨ ∃ j, i = j + 1 ∧ str[j]? = some '\r' := by
  induction str with
  | nil => intro b; simp [newlines_ok]
  | cons c cs ih =>
    intro b
    simp only [newlines_ok, Bool.and_eq_true, Bool.or_eq_true, bne_iff_ne, ne_eq, ih]
    constructor
    · rintro ⟨h0, hrest⟩ i hi
      cases i with
      | zero =>
        left
        simp only [List.getElem?_cons_zero, Option.some.injEq] at hi
        rcases h0 with h0 | h0
        · exact absurd hi h0
        · exact ⟨rfl, h0⟩
      | succ k =>
        right
        simp only [List.getElem?_cons_succ] at hi
        rcases hrest k hi with ⟨hk, hc⟩ | ⟨j, hj, hcr⟩
        · refine ⟨0, by omega, ?_⟩
          simpa using hc
        · exact ⟨j + 1, by omega, by simpa using hcr⟩
    · intro h
      constructor
      · by_cases hc : c = '\n'
        · right
          rcases h 0 (by simp [hc]) with ⟨_, hb⟩ | ⟨j, hj, _⟩
          · exact hb
          · omega
        · exact Or.inl hc
      · intro k hk
        rcases h (k + 1) (by simpa using hk) with ⟨hk0, _⟩ | ⟨j, hj, hcr⟩
        · omega
        · have hjk : j = k := by omega
          subst hjk
          cases j with
          | zero =>
            left
            simp only [List.getElem?_cons_zero, Option.some.injEq] at hcr
            exact ⟨rfl, by simp [hcr]⟩
          | succ m =>
            right
            exact ⟨m, rfl, by simpa using hcr⟩

theorem windows_newlines_iff (str : CppString) :
    windows_newlines str ↔ newlines_ok false str = true := by
  rw [newlines_ok_iff]
  simp [windows_newlines]

theorem newlines_ok_insert_missing_cr (str : CppString) :
    ∀ b : Bool, newlines_ok b (insert_missing_cr b str) = true := by
  induction str with
  | nil => intro b; simp [insert_missing_cr, newlines_ok]
  | cons c cs ih =>
    intro b
    by_cases hc : c = '\n' ∧ b = false
    · simp [insert_missing_cr, hc, newlines_ok, ih]
    · simp only [insert_missing_cr, if_neg hc, newlines_ok, ih, Bool.and_true]
      by_cases hn : c = '\n'
      · cases b <;> simp_all
      · simp [hn]

theorem insert_missing_cr_of_ok (str : CppString) :
    ∀ b : Bool, newlines_ok b str = true → insert_missing_cr b str = str := by
  induction str with
  | nil => intro b _; simp [insert_missing_cr]
  | cons c cs ih =>
    intro b h
    simp only [newlines_ok, Bool.and_eq_true, Bool.or_eq_true, bne_iff_ne, ne_eq] at h
    have hc : ¬ (c = '\n' ∧ b = false) := by
      rintro ⟨h1, h2⟩
      rcases h.1 with h0 | h0
      · exact h0 h1
      · simp [h2] at h0
    simp [insert_missing_cr, hc, ih _ h.2]

theorem double_ne_DBL_MAX (x : Double) : Double.ne x DBL_MAX = true ↔ x ≠ DBL_MAX := by
  have h1 : Double.isNaN DBL_MAX = false := by decide
  have h2 : Double.isZero DBL_MAX = false := by decide
  by_cases hx : x = DBL_MAX
  · subst hx
    simp [Double.ne, h1, h2]
  · simp [Double.ne, h1, h2, hx]

/-! ## Lemmas: the search loop -/

theorem queried_log (l : LogLevel) (n : Nat) (t : List Event) :
    queried (.log l n :: t) = queried t := rfl

theorem queries_append (t u : List Event) :
    queries (t ++ u) = queries t ++ queries u := by
  simp [queries]

theorem queried_append (t u : List Event) :
    queried (t ++ u) = queried t ++ queried u := by
  simp [queried, queries_append]

theorem saves_append (t u : List Event) :
    saves (t ++ u) = saves t ++ saves u := by
  simp [saves]

theorem published_append (t u : List Event) :
    published (t ++ u) = published t ++ published u := by
  simp [published]

theorem completions_append (t u : List Event) :
    completions (t ++ u) = completions t + completions u := by
  simp [completions]

/-- One iteration of the loop: either it is the successful one, or the loop
goes on with the next source after a stretch `pre` of the trace. -/
theorem search_loop_cons (env : Env) (s : LyricSourceBase) (rest : List LyricSourceBase)
    (k : Nat) (a : Bool) (raw : LyricDataRaw) :
    ((a || env.abort_requested k) = false ∧ ∃ r, s.query = .returns r ∧ r.text ≠ [] ∧
        search_loop env (s :: rest) k a raw
          = { trace := [.query k s.id, .log .info 101], success_source := some s,
              lyric_data_raw := r })
    ∨ ∃ pre raw',
        search_loop env (s :: rest) k a raw
          = { trace := pre ++ (search_loop env rest (k + 1) (a || env.abort_requested k) raw').trace,
              success_source :=
                (search_loop env rest (k + 1) (a || env.abort_requested k) raw').success_source,
              lyric_data_raw :=
                (search_loop env rest (k + 1) (a || env.abort_requested k) raw').lyric_data_raw } ∧
        queried pre = (if (a || env.abort_requested k) = true then [] else [k]) ∧
        saves pre = [] ∧ published pre = [] ∧ completions pre = 0 ∧
        (raw' = raw ∨ raw'.text = []) ∧
        ((a || env.abort_requested k) = true → raw' = raw) ∧
        ((a || env.abort_requested k) = true ∨ ∀ r, s.query = .returns r → r.text = []) ∧
        queries pre = (if (a || env.abort_requested k) = true then [] else [(k, s.id)]) ∧
        warnings pre = [] := by
  by_cases hab : (a || env.abort_requested k) = true
  · right
    refine ⟨[.log .error 107, .log .info 114], raw, ?_⟩
    simp [search_loop, hab, queried, queries, saves, published, completions, warnings]
  · simp only [Bool.not_eq_true] at hab
    cases hq : s.query with
    | returns r =>
      by_cases hr : r.text = []
      · right
        refine ⟨[.query k s.id, .log .info 114], r, ?_⟩
        simp [search_loop, hab, hq, hr, queried, queries, saves, published, completions, warnings]
      · left
        refine ⟨hab, r, rfl, hr, ?_⟩
        simp [search_loop, hab, hq, hr]
    | throws e =>
      right
      cases e with
      | std_exception =>
        refine ⟨[.query k s.id, .log .error 107, .log .info 114], raw, ?_⟩
        simp [search_loop, hab, hq, queried, queries, saves, published, completions, warnings]
      | unrecognised =>
        refine ⟨[.query k s.id, .log .error 111, .log .info 114], raw, ?_⟩
        simp [search_loop, hab, hq, queried, queries, saves, published, completions, warnings]

/-- With the abort flag set the loop queries nothing, finds nothing and leaves
`lyric_data_raw` alone. -/
theorem search_loop_aborted (env : Env) (sources : List LyricSourceBase) :
    ∀ (k : Nat) (raw : LyricDataRaw),
      queried (search_loop env sources k true raw).trace = [] ∧
      (search_loop env sources k true raw).success_source = none ∧
      (search_loop env sources k true raw).lyric_data_raw = raw := by
  induction sources with
  | nil => intro k raw; simp [search_loop, queried, queries]
  | cons s rest ih =>
    intro k raw
    have h := ih (k + 1) raw
    simp only [search_loop, Bool.true_or, if_true, queried_log, h, and_self]

/-- The loop neither saves, nor publishes, nor signals completion. -/
theorem search_loop_quiet (env : Env) (sources : List LyricSourceBase) :
    ∀ (k : Nat) (a : Bool) (raw : LyricDataRaw),
      saves (search_loop env sources k a raw).trace = [] ∧
      published (search_loop env sources k a raw).trace = [] ∧
      completions (search_loop env sources k a raw).trace = 0 := by
  induction sources with
  | nil => intro k a raw; simp [search_loop, saves, published, completions]
  | cons s rest ih =>
    intro k a raw
    rcases search_loop_cons env s rest k a raw with ⟨_, r, _, _, h⟩ | ⟨pre, raw', h, _, h1, h2, h3, _⟩
    · rw [h]; simp [saves, published, completions]
    · obtain ⟨i1, i2, i3⟩ := ih (k + 1) (a || env.abort_requested k) raw'
      rw [h]
      simp only [saves_append, published_append, completions_append, h1, h2, h3, i1, i2, i3,
        List.append_nil, Nat.add_zero, and_self]

/-- Every queried iteration lies in the range of the loop. -/
theorem search_loop_queried_range (env : Env) (sources : List LyricSourceBase) :
    ∀ (k : Nat) (a : Bool) (raw : LyricDataRaw),
      ∀ j ∈ queried (search_loop env sources k a raw).trace, k ≤ j ∧ j < k + sources.length := by
  induction sources with
  | nil => intro k a raw j hj; simp [search_loop, queried, queries] at hj
  | cons s rest ih =>
    intro k a raw j hj
    simp only [List.length_cons]
    rcases search_loop_cons env s rest k a raw with ⟨_, r, _, _, h⟩ | ⟨pre, raw', h, hq, _⟩
    · rw [h] at hj
      simp [queried, queries] at hj
      omega
    · rw [h] at hj
      simp only [queried_append, hq, List.mem_append] at hj
      rcases hj with hj | hj
      · split at hj
        · simp at hj
        · simp at hj; omega
      · have := ih _ _ _ j hj
        omega

/-- Sources are queried in strictly increasing order of position. -/
theorem search_loop_queried_sorted (env : Env) (sources : List LyricSourceBase) :
    ∀ (k : Nat) (a : Bool) (raw : LyricDataRaw),
      (queried (search_loop env sources k a raw).trace).Pairwise (· < ·) := by
  induction sources with
  | nil => intro k a raw; simp [search_loop, queried, queries]
  | cons s rest ih =>
    intro k a raw
    rcases search_loop_cons env s rest k a raw with ⟨_, r, _, _, h⟩ | ⟨pre, raw', h, hq, _⟩
    · rw [h]; simp [queried, queries]
    · rw [h]
      simp only [queried_append, hq]
      split
      · simpa using ih _ _ _
      · simp only [List.singleton_append, List.pairwise_cons]
        refine ⟨fun j hj => ?_, ih _ _ _⟩
        have := search_loop_queried_range env rest _ _ _ j hj
        omega

/-- First success wins: nothing beyond a source that answers non-empty text
is queried. -/
theorem search_loop_first_success (env : Env) (sources : List LyricSourceBase) :
    ∀ (k : Nat) (a : Bool) (raw : LyricDataRaw) (i : Nat) (s : LyricSourceBase)
      (r : LyricDataRaw), sources[i]? = some s → s.query = .returns r → r.text ≠ [] →
      ∀ j ∈ queried (search_loop env sources k a raw).trace, j ≤ k + i := by
  induction sources with
  | nil => intro k a raw i s r hs; simp at hs
  | cons s0 rest ih =>
    intro k a raw i s r hs hq hr j hj
    rcases search_loop_cons env s0 rest k a raw with ⟨_, r0, _, _, h⟩ | ⟨pre, raw', h, hpre, _, _, _, _, _, hfail, _, _⟩
    · rw [h] at hj
      simp [queried, queries] at hj
      omega
    · rw [h] at hj
      simp only [queried_append, hpre, List.mem_append] at hj
      rcases hj with hj | hj
      · split at hj
        · simp at hj
        · simp at hj; omega
      · cases i with
        | zero =>
          simp only [List.getElem?_cons_zero, Option.some.injEq] at hs
          subst hs
          rcases hfail with hab | hfail
          · rw [hab, (search_loop_aborted env rest (k + 1) raw').1] at hj
            simp at hj
          · exact absurd (hfail r hq) hr
        | succ i' =>
          simp only [List.getElem?_cons_succ] at hs
          have := ih (k + 1) _ raw' i' s r hs hq hr j hj
          omega

/-- Once an abort request has been seen, no later iteration queries. -/
theorem search_loop_after_abort (env : Env) (sources : List LyricSourceBase) :
    ∀ (k : Nat) (a : Bool) (raw : LyricDataRaw) (i : Nat), env.abort_requested (k + i) = true →
      ∀ j ∈ queried (search_loop env sources k a raw).trace, j < k + i := by
  induction sources with
  | nil => intro k a raw i _ j hj; simp [search_loop, queried, queries] at hj
  | cons s0 rest ih =>
    intro k a raw i hi j hj
    cases i with
    | zero =>
      simp only [Nat.add_zero] at hi
      have hab : (a || env.abort_requested k) = true := by simp [hi]
      unfold search_loop at hj
      rw [if_pos hab] at hj
      simp only [queried_log, (search_loop_aborted env rest (k + 1) raw).1] at hj
      simp at hj
    | succ i' =>
      rcases search_loop_cons env s0 rest k a raw with ⟨_, r0, _, _, h⟩ | ⟨pre, raw', h, hpre, _⟩
      · rw [h] at hj
        simp [queried, queries] at hj
        omega
      · rw [h] at hj
        simp only [queried_append, hpre, List.mem_append] at hj
        rcases hj with hj | hj
        · split at hj
          · simp at hj
          · simp at hj; omega
        · have := ih (k + 1) _ raw' i' (by rw [← hi]; congr 1; omega) j hj
          omega

/-- The loop stops at the first source that is reached with the abort flag
clear and answers non-empty text; the sources before it are all queried. -/
theorem search_loop_success (env : Env) (sources : List LyricSourceBase) :
    ∀ (k : Nat) (raw : LyricDataRaw) (i : Nat) (s : LyricSourceBase) (r : LyricDataRaw),
      sources[i]? = some s → s.query = .returns r → r.text ≠ [] →
      (∀ j < i, ∀ s' r', sources[j]? = some s' → s'.query = .returns r' → r'.text = []) →
      (∀ j ≤ i, env.abort_requested (k + j) = false) →
      (search_loop env sources k false raw).success_source = some s ∧
      (search_loop env sources k false raw).lyric_data_raw = r ∧
      queried (search_loop env sources k false raw).trace = List.range' k (i + 1) := by
  induction sources with
  | nil => intro k raw i s r hs; simp at hs
  | cons s0 rest ih =>
    intro k raw i s r hs hq hr hbefore hab
    have hk : env.abort_requested k = false := by simpa using hab 0 (Nat.zero_le _)
    cases i with
    | zero =>
      simp only [List.getElem?_cons_zero, Option.some.injEq] at hs
      subst hs
      have hr' : r.text.isEmpty = false := by
        cases hrt : r.text with
        | nil => exact absurd hrt hr
        | cons _ _ => rfl
      simp [search_loop, hk, hq, hr', queried, queries]
    | succ i' =>
      simp only [List.getElem?_cons_succ] at hs
      rcases search_loop_cons env s0 rest k false raw with
        ⟨_, r0, hq0, hr0, _⟩ | ⟨pre, raw', h, hpre, _⟩
      · exact absurd (hbefore 0 (Nat.succ_pos _) s0 r0 (by simp) hq0) hr0
      · have hrec := ih (k + 1) raw' i' s r hs hq hr
          (fun j hj s' r' hs' => hbefore (j + 1) (by omega) s' r' (by simpa using hs'))
          (fun j hj => by have := hab (j + 1) (by omega); rw [← this]; congr 1; omega)
        simp only [hk, Bool.or_false] at h hpre
        rw [h]
        simp only [queried_append, hpre, hrec]
        simp [List.range'_succ]

/-- The loop ends without a successful source, and with empty raw text, when
every source that would answer non-empty text is reached only after an
abort request. -/
theorem search_loop_failure (env : Env) (sources : List LyricSourceBase) :
    ∀ (k : Nat) (a : Bool) (raw : LyricDataRaw), raw.text = [] →
      (a = true ∨ ∀ i s r, sources[i]? = some s → s.query = .returns r → r.text ≠ [] →
        ∃ j ≤ i, env.abort_requested (k + j) = true) →
      (search_loop env sources k a raw).success_source = none ∧
      (search_loop env sources k a raw).lyric_data_raw.text = [] := by
  induction sources with
  | nil => intro k a raw hraw _; simp [search_loop, hraw]
  | cons s0 rest ih =>
    intro k a raw hraw hall
    rcases search_loop_cons env s0 rest k a raw with
      ⟨hab, r0, hq0, hr0, _⟩ | ⟨pre, raw', h, _, _, _, _, hraw', _, _⟩
    · simp only [Bool.or_eq_false_iff] at hab
      rcases hall with ha | hall
      · simp [ha] at hab
      · obtain ⟨j, hj, hjab⟩ := hall 0 s0 r0 (by simp) hq0 hr0
        have : j = 0 := by omega
        subst this
        simp [hab.2] at hjab
    · rw [h]
      refine ih (k + 1) _ raw' (by rcases hraw' with h1 | h1 <;> simp [h1, hraw]) ?_
      by_cases hab : (a || env.abort_requested k) = true
      · exact Or.inl hab
      · right
        intro i s r hs hq hr
        rcases hall with ha | hall
        · simp [ha] at hab
        · obtain ⟨j, hj, hjab⟩ := hall (i + 1) s r (by simpa using hs) hq hr
          cases j with
          | zero => simp at hjab; simp [hjab] at hab
          | succ j' => exact ⟨j', by omega, by rw [← hjab]; congr 1; omega⟩

theorem warnings_append (t u : List Event) :
    warnings (t ++ u) = warnings t ++ warnings u := by
  simp [warnings]

/-- The loop logs no warning. -/
theorem search_loop_warnings (env : Env) (sources : List LyricSourceBase) :
    ∀ (k : Nat) (a : Bool) (raw : LyricDataRaw),
      warnings (search_loop env sources k a raw).trace = [] := by
  induction sources with
  | nil => intro k a raw; simp [search_loop, warnings]
  | cons s rest ih =>
    intro k a raw
    rcases search_loop_cons env s rest k a raw with
      ⟨_, r, _, _, h⟩ | ⟨pre, raw', h, _, _, _, _, _, _, _, _, hw⟩
    · rw [h]; simp [warnings]
    · rw [h]
      simp only [warnings_append, hw, ih, List.append_nil]

/-- Each query of the loop is addressed to the source at its position. -/
theorem search_loop_queries (env : Env) (sources : List LyricSourceBase) :
    ∀ (k : Nat) (a : Bool) (raw : LyricDataRaw),
      ∀ q ∈ queries (search_loop env sources k a raw).trace,
        k ≤ q.1 ∧ ∃ s, sources[q.1 - k]? = some s ∧ s.id = q.2 := by
  induction sources with
  | nil => intro k a raw q hq; simp [search_loop, queries] at hq
  | cons s0 rest ih =>
    intro k a raw q hq
    rcases search_loop_cons env s0 rest k a raw with
      ⟨_, r, _, _, h⟩ | ⟨pre, raw', h, _, _, _, _, _, _, _, hpre, _⟩
    · rw [h] at hq
      simp [queries] at hq
      subst hq
      simp
    · rw [h] at hq
      simp only [queries_append, hpre, List.mem_append] at hq
      rcases hq with hq | hq
      · split at hq
        · simp at hq
        · simp at hq
          subst hq
          simp
      · obtain ⟨h1, s, h2, h3⟩ := ih _ _ _ q hq
        refine ⟨by omega, s, ?_, h3⟩
        have : q.1 - k = (q.1 - (k + 1)) + 1 := by omega
        rw [this]
        simpa using h2

theorem warnings_parse_step (env : Env) (raw : LyricDataRaw) :
    warnings (parse_step env raw).1 = [] := by
  unfold parse_step
  split <;> simp [warnings]

/-! ## Lemmas: the steps after the loop -/

theorem move_assign_fst (this other : LyricData) :
    (LyricData.move_assign this other).1 = other := rfl

theorem insert_missing_cr_eq_nil (b : Bool) (str : CppString) :
    insert_missing_cr b str = [] ↔ str = [] := by
  cases str with
  | nil => simp [insert_missing_cr]
  | cons c cs =>
    simp only [insert_missing_cr]
    split <;> simp

theorem parse_step_of_ne_nil (env : Env) (raw : LyricDataRaw) (h : raw.text ≠ []) :
    parse_step env raw = ([.log .info 120], env.parse raw) := by
  have h' : raw.text.isEmpty = false := by
    cases hrt : raw.text with
    | nil => exact absurd hrt h
    | cons _ _ => rfl
  simp [parse_step, h', move_assign_fst]

theorem parse_step_of_nil (env : Env) (raw : LyricDataRaw) (h : raw.text = []) :
    parse_step env raw = ([], LyricData.empty) := by
  simp [parse_step, h]

theorem parse_step_quiet (env : Env) (raw : LyricDataRaw) :
    queries (parse_step env raw).1 = [] ∧ saves (parse_step env raw).1 = [] ∧
    published (parse_step env raw).1 = [] ∧ completions (parse_step env raw).1 = 0 := by
  unfold parse_step
  split <;> simp [queries, saves, published, completions]

theorem save_step_of_not_gate (env : Env) (d : LyricData) (src : Option LyricSourceBase)
    (h : ¬ save_gate env d src) : save_step env d src = ([], none) := by
  unfold save_step
  rw [if_neg]
  intro hc
  apply h
  simp only [Bool.and_eq_true, Bool.not_eq_true'] at hc
  refine ⟨hc.1.1, hc.1.2, ?_⟩
  cases src with
  | none => simp at hc
  | some s => exact ⟨s, rfl, by simpa using hc.2⟩

theorem save_step_of_gate (env : Env) (d : LyricData) (src : Option LyricSourceBase)
    (h : save_gate env d src) :
    save_step env d src =
      match env.save_method with
      | .ConfigDirectory =>
        match env.SaveLyrics d.IsTimestamped
            (if d.IsTimestamped = true then env.shrink_text d else d.text) with
        | none =>
          ([.save d.IsTimestamped (if d.IsTimestamped = true then env.shrink_text d else d.text)],
            none)
        | some .std_exception =>
          ([.save d.IsTimestamped (if d.IsTimestamped = true then env.shrink_text d else d.text),
            .log .error 167], none)
        | some .unrecognised =>
          ([.save d.IsTimestamped (if d.IsTimestamped = true then env.shrink_text d else d.text)],
            some (.uncaught .unrecognised))
      | .Id3Tag =>
        ([.log .warn 152], if env.asserts_enabled = true then some (.assertion_failed 153) else none)
      | .None => ([], none)
      | .unrecognised _ =>
        ([.log .warn 159], if env.asserts_enabled = true then some (.assertion_failed 160) else none) := by
  obtain ⟨h1, h2, s, rfl, h3⟩ := h
  unfold save_step
  rw [if_pos (by simp [h1, h2, h3])]
  cases hm : env.save_method <;> simp only []
  cases hts : d.IsTimestamped <;> simp

theorem save_step_quiet (env : Env) (d : LyricData) (src : Option LyricSourceBase) :
    queries (save_step env d src).1 = [] ∧ published (save_step env d src).1 = [] ∧
    completions (save_step env d src).1 = 0 := by
  by_cases h : save_gate env d src
  · rw [save_step_of_gate env d src h]
    cases env.save_method with
    | ConfigDirectory =>
      simp only []
      cases env.SaveLyrics d.IsTimestamped
          (if d.IsTimestamped = true then env.shrink_text d else d.text) with
      | none => simp [queries, published, completions]
      | some e => cases e <;> simp [queries, published, completions]
    | _ => simp [queries, published, completions]
  · rw [save_step_of_not_gate env d src h]
    simp [queries, published, completions]

theorem save_step_saves (env : Env) (d : LyricData) (src : Option LyricSourceBase)
    (h : save_gate env d src) (hm : env.save_method = .ConfigDirectory) :
    saves (save_step env d src).1
      = [(d.IsTimestamped, if d.IsTimestamped = true then env.shrink_text d else d.text)] := by
  rw [save_step_of_gate env d src h, hm]
  simp only []
  cases env.SaveLyrics d.IsTimestamped
      (if d.IsTimestamped = true then env.shrink_text d else d.text) with
  | none => simp [saves]
  | some e => cases e <;> simp [saves]

theorem save_step_no_saves (env : Env) (d : LyricData) (src : Option LyricSourceBase)
    (h : ¬ (save_gate env d src ∧ env.save_method = .ConfigDirectory)) :
    saves (save_step env d src).1 = [] := by
  by_cases hg : save_gate env d src
  · rw [save_step_of_gate env d src hg]
    cases hm : env.save_method with
    | ConfigDirectory => exact absurd ⟨hg, hm⟩ h
    | _ => simp [saves]
  · rw [save_step_of_not_gate env d src hg]
    simp [saves]

/-- The save step lets control reach line 170 when no live `assert(false)` is
hit and `SaveLyrics` throws nothing that `catch(const std::exception&)`
misses. -/
theorem save_step_completes (env : Env) (d : LyricData) (src : Option LyricSourceBase)
    (hassert : env.asserts_enabled = false ∨ env.save_method = .None ∨
      env.save_method = .ConfigDirectory)
    (hsave : ∀ b t, env.SaveLyrics b t ≠ some .unrecognised) :
    (save_step env d src).2 = none := by
  by_cases hg : save_gate env d src
  · rw [save_step_of_gate env d src hg]
    cases hm : env.save_method with
    | ConfigDirectory =>
      simp only []
      cases hs : env.SaveLyrics d.IsTimestamped
          (if d.IsTimestamped = true then env.shrink_text d else d.text) with
      | none => rfl
      | some e =>
        cases e with
        | std_exception => rfl
        | unrecognised => exact absurd hs (hsave _ _)
    | None => rfl
    | Id3Tag =>
      rcases hassert with h | h | h
      · simp [h]
      · simp [hm] at h
      · simp [hm] at h
    | unrecognised v =>
      rcases hassert with h | h | h
      · simp [h]
      · simp [hm] at h
      · simp [hm] at h
  · rw [save_step_of_not_gate env d src hg]

theorem not_save_gate_empty (env : Env) (src : Option LyricSourceBase) :
    ¬ save_gate env LyricData.empty src := by
  intro h
  have := h.1
  simp [LyricData.IsEmpty, LyricData.empty] at this

/-- Shape of a run: a stretch `pre` without publication or completion, then
either the three final actions or nothing. -/
theorem run_async_shape (env : Env) (sources : List LyricSourceBase) :
    ∃ pre, queries pre = queries (search env sources).trace ∧
      saves pre = saves (save_step env (working_record env sources)
        (search env sources).success_source).1 ∧
      published pre = [] ∧ completions pre = 0 ∧
      warnings pre = warnings (save_step env (working_record env sources)
        (search env sources).success_source).1 ∧
      (((save_step env (working_record env sources) (search env sources).success_source).2 = none ∧
          run_async env sources =
            { trace := pre ++ [.publish (working_record env sources), .set_event, .log .info 176],
              termination := .returned }) ∨
        ∃ t, (save_step env (working_record env sources) (search env sources).success_source).2
            = some t ∧
          run_async env sources = { trace := pre, termination := t }) := by
  obtain ⟨l1, l2, l3⟩ := search_loop_quiet env sources 0 false { source_id := 0, text := [] }
  obtain ⟨p0, p1, p2, p3⟩ := parse_step_quiet env
    { (search env sources).lyric_data_raw with
      text := insert_missing_cr false (search env sources).lyric_data_raw.text }
  obtain ⟨s0, s2, s3⟩ := save_step_quiet env (working_record env sources)
    (search env sources).success_source
  refine ⟨(search env sources).trace ++ (parse_step env
    { (search env sources).lyric_data_raw with
      text := insert_missing_cr false (search env sources).lyric_data_raw.text }).1 ++
    (save_step env (working_record env sources) (search env sources).success_source).1,
    ?_, ?_, ?_, ?_, ?_, ?_⟩
  · simp only [queries_append, p0, s0, List.append_nil]
  · simp only [saves_append, p1, List.append_nil]
    rw [show saves (search env sources).trace = [] from l1]
    simp
  · simp only [published_append, p2, s2, List.append_nil]
    exact l2
  · simp only [completions_append, p3, s3, Nat.add_zero]
    exact l3
  · simp only [warnings_append, warnings_parse_step, List.append_nil]
    rw [show warnings (search env sources).trace = [] from search_loop_warnings env sources 0 false _]
    simp
  · cases hs : (save_step env (working_record env sources) (search env sources).success_source).2 with
    | none =>
      left
      refine ⟨rfl, ?_⟩
      simp only [run_async, ensure_windows_newlines_eq]
      simp only [working_record] at hs
      simp only [hs, working_record]
    | some t =>
      right
      refine ⟨t, rfl, ?_⟩
      simp only [run_async, ensure_windows_newlines_eq]
      simp only [working_record] at hs
      simp only [hs, working_record]

/-! ## Lemmas: the session object -/

theorem foldl_apply_m_lyrics (t : List Event) :
    ∀ (n : Nat) (s : LyricSearch), published t = [] →
      ((t.take n).foldl LyricSearch.apply s).m_lyrics = s.m_lyrics := by
  induction t with
  | nil => intro n s _; simp
  | cons e rest ih =>
    intro n s h
    cases n with
    | zero => simp
    | succ m =>
      cases e with
      | publish d => simp [published] at h
      | log l k =>
        have h' : published rest = [] := by simpa [published] using h
        simpa [LyricSearch.apply] using ih m s h'
      | query k g =>
        have h' : published rest = [] := by simpa [published] using h
        simpa [LyricSearch.apply] using ih m s h'
      | save b x =>
        have h' : published rest = [] := by simpa [published] using h
        simpa [LyricSearch.apply] using ih m s h'
      | set_event =>
        have h' : published rest = [] := by simpa [published] using h
        simpa [LyricSearch.apply] using ih m _ h'

/-- The slot over time, for a run that ends with the three final actions. -/
theorem get_result_timeline (pre : List Event) (d : LyricData) (h : published pre = [])
    (n : Nat) :
    (LyricSearch.after
        ((pre ++ [Event.publish d, Event.set_event, Event.log .info 176]).take n)).get_result
      = if n ≤ pre.length then none else some d := by
  unfold LyricSearch.after LyricSearch.get_result
  rw [List.take_append_eq_append_take, List.foldl_append]
  by_cases hn : n ≤ pre.length
  · rw [if_pos hn, show n - pre.length = 0 by omega]
    simpa [LyricSearch.init] using foldl_apply_m_lyrics pre n LyricSearch.init h
  · rw [if_neg hn]
    obtain ⟨m, hm⟩ : ∃ m, n - pre.length = m + 1 := ⟨n - pre.length - 1, by omega⟩
    rw [hm]
    simp only [List.take_succ_cons, List.foldl_cons, LyricSearch.apply]
    have := foldl_apply_m_lyrics [Event.set_event, Event.log .info 176] m
      { (List.foldl LyricSearch.apply LyricSearch.init (List.take n pre)) with
        m_lyrics := some d } (by simp [published])
    simpa using this

theorem m_complete_final (pre : List Event) (d : LyricData) :
    (LyricSearch.after (pre ++ [.publish d, .set_event, .log .info 176])).m_complete = true := by
  simp [LyricSearch.after, List.foldl_append, LyricSearch.apply]

/-! ## Lemmas: whole runs -/

/-- A run whose save step lets control through ends with the three final
actions, publishing the working record. -/
theorem run_async_returned (env : Env) (sources : List LyricSourceBase)
    (h : (save_step env (working_record env sources) (search env sources).success_source).2
      = none) :
    (run_async env sources).termination = .returned ∧
    published (run_async env sources).trace = [working_record env sources] ∧
    completions (run_async env sources).trace = 1 ∧
    ∃ pre, (run_async env sources).trace
        = pre ++ [.publish (working_record env sources), .set_event, .log .info 176] ∧
      published pre = [] ∧ completions pre = 0 := by
  obtain ⟨pre, _, _, hp, hc, _, hcase⟩ := run_async_shape env sources
  rcases hcase with ⟨_, hrun⟩ | ⟨t, ht, _⟩
  · rw [hrun]
    refine ⟨rfl, ?_, ?_, pre, rfl, hp, hc⟩
    · rw [published_append, hp]; rfl
    · rw [completions_append, hc]; rfl
  · rw [h] at ht
    simp at ht

/-- A run whose save step does not let control through publishes nothing and
signals nothing. -/
theorem run_async_escaped (env : Env) (sources : List LyricSourceBase) (t : Termination)
    (h : (save_step env (working_record env sources) (search env sources).success_source).2
      = some t) :
    (run_async env sources).termination = t ∧
    published (run_async env sources).trace = [] ∧
    completions (run_async env sources).trace = 0 := by
  obtain ⟨pre, _, _, hp, hc, _, hcase⟩ := run_async_shape env sources
  rcases hcase with ⟨hn, _⟩ | ⟨t', ht, hrun⟩
  · rw [h] at hn
    simp at hn
  · rw [h] at ht
    simp only [Option.some.injEq] at ht
    subst ht
    rw [hrun]
    exact ⟨rfl, hp, hc⟩

theorem run_async_queries (env : Env) (sources : List LyricSourceBase) :
    queries (run_async env sources).trace = queries (search env sources).trace := by
  obtain ⟨pre, hq, _, _, _, _, hcase⟩ := run_async_shape env sources
  rcases hcase with ⟨_, hrun⟩ | ⟨t, _, hrun⟩
  · rw [hrun]
    rw [queries_append, hq]; exact List.append_nil _
  · rw [hrun]
    exact hq

theorem run_async_saves (env : Env) (sources : List LyricSourceBase) :
    saves (run_async env sources).trace
      = saves (save_step env (working_record env sources)
          (search env sources).success_source).1 := by
  obtain ⟨pre, _, hs, _, _, _, hcase⟩ := run_async_shape env sources
  rcases hcase with ⟨_, hrun⟩ | ⟨t, _, hrun⟩
  · rw [hrun]
    rw [saves_append, hs]; exact List.append_nil _
  · rw [hrun]
    exact hs

theorem run_async_warnings (env : Env) (sources : List LyricSourceBase) :
    warnings (run_async env sources).trace
      = warnings (save_step env (working_record env sources)
          (search env sources).success_source).1 := by
  obtain ⟨pre, _, _, _, _, hw, hcase⟩ := run_async_shape env sources
  rcases hcase with ⟨_, hrun⟩ | ⟨t, _, hrun⟩
  · rw [hrun]
    rw [warnings_append, hw]; exact List.append_nil _
  · rw [hrun]
    exact hw

/-- The search finds the first source that is reached with the abort flag
clear and answers non-empty text; the working record is the parse of its
answer with the text normalised. -/
theorem search_finds (env : Env) (sources : List LyricSourceBase) (i : Nat)
    (s : LyricSourceBase) (r : LyricDataRaw)
    (hs : sources[i]? = some s) (hq : s.query = .returns r) (hr : r.text ≠ [])
    (hbefore : ∀ j < i, ∀ s' r', sources[j]? = some s' → s'.query = .returns r' → r'.text = [])
    (hab : ∀ j ≤ i, env.abort_requested j = false) :
    (search env sources).success_source = some s ∧
    working_record env sources
      = env.parse { source_id := r.source_id, text := insert_missing_cr false r.text } := by
  obtain ⟨h1, h2, _⟩ := search_loop_success env sources 0 { source_id := 0, text := [] } i s r
    hs hq hr hbefore (fun j hj => by simpa using hab j hj)
  refine ⟨h1, ?_⟩
  unfold working_record search
  rw [h2, parse_step_of_ne_nil]
  simpa [insert_missing_cr_eq_nil] using hr

/-- The search finds nothing, and the working record stays empty, when every
source that would answer non-empty text is reached only after an abort
request. -/
theorem search_finds_nothing (env : Env) (sources : List LyricSourceBase)
    (h : ∀ i s r, sources[i]? = some s → s.query = .returns r → r.text ≠ [] →
      ∃ j ≤ i, env.abort_requested j = true) :
    (search env sources).success_source = none ∧
    working_record env sources = LyricData.empty := by
  obtain ⟨h1, h2⟩ := search_loop_failure env sources 0 false { source_id := 0, text := [] } rfl
    (Or.inr (fun i s r hs hq hr => by simpa using h i s r hs hq hr))
  refine ⟨h1, ?_⟩
  unfold working_record search
  rw [parse_step_of_nil]
  simpa [insert_missing_cr_eq_nil] using h2

/-- A run that finds nothing returns, publishing the empty record. -/
theorem run_async_nothing_found (env : Env) (sources : List LyricSourceBase)
    (h : ∀ i s r, sources[i]? = some s → s.query = .returns r → r.text ≠ [] →
      ∃ j ≤ i, env.abort_requested j = true) :
    saves (run_async env sources).trace = [] ∧
    (run_async env sources).termination = .returned ∧
    published (run_async env sources).trace = [LyricData.empty] ∧
    completions (run_async env sources).trace = 1 ∧
    ∃ pre, (run_async env sources).trace
        = pre ++ [.publish LyricData.empty, .set_event, .log .info 176] ∧
      published pre = [] ∧ completions pre = 0 := by
  obtain ⟨h1, h2⟩ := search_finds_nothing env sources h
  have hstep : save_step env (working_record env sources) (search env sources).success_source
      = ([], none) := by
    rw [h2]
    exact save_step_of_not_gate env _ _ (not_save_gate_empty env _)
  have hret := run_async_returned env sources (by rw [hstep])
  rw [h2] at hret
  refine ⟨?_, hret⟩
  rw [run_async_saves, hstep]
  rfl

theorem insert_missing_cr_sublist (str : CppString) :
    ∀ b : Bool, str.Sublist (insert_missing_cr b str) := by
  induction str with
  | nil => intro b; simp [insert_missing_cr]
  | cons c cs ih =>
    intro b
    simp only [insert_missing_cr]
    split
    · rename_i h
      rw [h.1]
      exact List.Sublist.cons _ (List.Sublist.cons₂ _ (ih false))
    · exact List.Sublist.cons₂ _ (ih _)

theorem insert_missing_cr_filter (str : CppString) :
    ∀ b : Bool, (insert_missing_cr b str).filter (fun c => c != '\r')
      = str.filter (fun c => c != '\r') := by
  induction str with
  | nil => intro b; simp [insert_missing_cr]
  | cons c cs ih =>
    intro b
    simp only [insert_missing_cr]
    split
    · rename_i h
      rw [h.1]
      simp [List.filter_cons, ih]
    · simp [List.filter_cons, ih]

theorem get_result_final (pre : List Event) (d : LyricData) (h : published pre = []) :
    (LyricSearch.after
      (pre ++ [Event.publish d, Event.set_event, Event.log .info 176])).get_result = some d := by
  have := get_result_timeline pre d h (pre ++ [Event.publish d, Event.set_event,
    Event.log .info 176]).length
  rw [List.take_length] at this
  rw [this, if_neg]
  simp

theorem publishes_once_of_returned (env : Env) (sources : List LyricSourceBase)
    (h : (save_step env (working_record env sources) (search env sources).success_source).2
      = none) :
    publishes_once (run_async env sources) (working_record env sources) := by
  obtain ⟨h1, h2, h3, pre, h4, h5, h6⟩ := run_async_returned env sources h
  refine ⟨h1, h2, h3, pre, h4, h5, h6, ?_, ?_⟩
  · intro n
    rw [h4]
    exact get_result_timeline pre _ h5 n
  · rw [h4]
    exact m_complete_final pre _

theorem save_step_ne_returned (env : Env) (d : LyricData) (src : Option LyricSourceBase) :
    (save_step env d src).2 ≠ some .returned := by
  by_cases hg : save_gate env d src
  · rw [save_step_of_gate env d src hg]
    cases env.save_method with
    | ConfigDirectory =>
      simp only []
      cases env.SaveLyrics d.IsTimestamped
          (if d.IsTimestamped = true then env.shrink_text d else d.text) with
      | none => simp
      | some e => cases e <;> simp
    | None => simp
    | Id3Tag => simp only []; split <;> simp
    | unrecognised v => simp only []; split <;> simp
  · rw [save_step_of_not_gate env d src hg]
    simp

/-- A run returns exactly when its save step lets control through. -/
theorem run_async_returned_iff (env : Env) (sources : List LyricSourceBase) :
    (run_async env sources).termination = .returned ↔
      (save_step env (working_record env sources) (search env sources).success_source).2
        = none := by
  constructor
  · intro h
    cases hs : (save_step env (working_record env sources)
        (search env sources).success_source).2 with
    | none => rfl
    | some t =>
      have := (run_async_escaped env sources t hs).1
      rw [h] at this
      exact absurd (this ▸ hs) (save_step_ne_returned env _ _)
  · intro h
    exact (run_async_returned env sources h).1

/-- In every run there is at most one publication and at most one completion
signal, and none at all unless the run returns. -/
theorem run_async_at_most_once (env : Env) (sources : List LyricSourceBase) :
    (published (run_async env sources).trace).length ≤ 1 ∧
    completions (run_async env sources).trace ≤ 1 ∧
    (∀ d ∈ published (run_async env sources).trace, d = working_record env sources) ∧
    ((run_async env sources).termination ≠ .returned →
      published (run_async env sources).trace = [] ∧
      completions (run_async env sources).trace = 0) := by
  cases hs : (save_step env (working_record env sources)
      (search env sources).success_source).2 with
  | none =>
    obtain ⟨h1, h2, h3, _⟩ := run_async_returned env sources hs
    rw [h2, h3]
    refine ⟨by simp, by simp, by simp, fun h => absurd h1 h⟩
  | some t =>
    obtain ⟨_, h2, h3⟩ := run_async_escaped env sources t hs
    rw [h2, h3]
    simp

theorem search_loop_congr (env env' : Env) (h : env.abort_requested = env'.abort_requested)
    (sources : List LyricSourceBase) :
    ∀ (k : Nat) (a : Bool) (raw : LyricDataRaw),
      search_loop env sources k a raw = search_loop env' sources k a raw := by
  induction sources with
  | nil => intro k a raw; rfl
  | cons s rest ih =>
    intro k a raw
    simp only [search_loop, h, ih]

theorem working_record_congr (env env' : Env) (h : env.abort_requested = env'.abort_requested)
    (hp : env.parse = env'.parse) (sources : List LyricSourceBase) :
    search env sources = search env' sources ∧
    working_record env sources = working_record env' sources := by
  have hs : search env sources = search env' sources := search_loop_congr env env' h sources _ _ _
  refine ⟨hs, ?_⟩
  simp only [working_record, hs, parse_step, hp]

theorem save_step_method_none (env : Env) (d : LyricData) (src : Option LyricSourceBase)
    (hm : env.save_method = .None) : save_step env d src = ([], none) := by
  by_cases hg : save_gate env d src
  · rw [save_step_of_gate env d src hg, hm]
  · exact save_step_of_not_gate env d src hg

theorem save_step_method_id3tag (env : Env) (d : LyricData) (src : Option LyricSourceBase)
    (hm : env.save_method = .Id3Tag) (hg : save_gate env d src) :
    save_step env d src
      = ([.log .warn 152],
          if env.asserts_enabled = true then some (.assertion_failed 153) else none) := by
  rw [save_step_of_gate env d src hg, hm]

/-- The save step lets control reach line 170 when it meets no live
`assert(false)` (assertions compiled out, or no warning logged: both asserts
directly follow a `LOG_WARN`) and none of the calls of `SaveLyrics` it makes
throws an object that `catch(const std::exception&)` misses. -/
theorem save_step_completes_of_run (env : Env) (d : LyricData)
    (src : Option LyricSourceBase)
    (hassert : env.asserts_enabled = false ∨ warnings (save_step env d src).1 = [])
    (hsave : ∀ c ∈ saves (save_step env d src).1, env.SaveLyrics c.1 c.2 ≠ some .unrecognised) :
    (save_step env d src).2 = none := by
  by_cases hg : save_gate env d src
  · rw [save_step_of_gate env d src hg] at hassert hsave ⊢
    cases hm : env.save_method with
    | ConfigDirectory =>
      rw [hm] at hsave
      simp only [] at hsave ⊢
      cases hs : env.SaveLyrics d.IsTimestamped
          (if d.IsTimestamped = true then env.shrink_text d else d.text) with
      | none => rfl
      | some e =>
        cases e with
        | std_exception => rfl
        | unrecognised =>
          rw [hs] at hsave
          exact absurd hs (hsave (d.IsTimestamped,
            if d.IsTimestamped = true then env.shrink_text d else d.text) (by simp [saves]))
    | None => rfl
    | Id3Tag =>
      rw [hm] at hassert
      rcases hassert with h | h
      · simp [h]
      · simp [warnings] at h
    | unrecognised v =>
      rw [hm] at hassert
      rcases hassert with h | h
      · simp [h]
      · simp [warnings] at h
  · rw [save_step_of_not_gate env d src hg]

/-- With assertions live, a save step that logs a warning stops in the
`assert(false)` that follows the `LOG_WARN`. -/
theorem save_step_assert (env : Env) (d : LyricData) (src : Option LyricSourceBase)
    (ha : env.asserts_enabled = true) (hw : warnings (save_step env d src).1 ≠ []) :
    (save_step env d src).2 = some (.assertion_failed 153) ∨
    (save_step env d src).2 = some (.assertion_failed 160) := by
  by_cases hg : save_gate env d src
  · rw [save_step_of_gate env d src hg] at hw ⊢
    cases hm : env.save_method with
    | ConfigDirectory =>
      rw [hm] at hw
      simp only [] at hw
      cases hs : env.SaveLyrics d.IsTimestamped
          (if d.IsTimestamped = true then env.shrink_text d else d.text) with
      | none => rw [hs] at hw; simp [warnings] at hw
      | some e => cases e <;> rw [hs] at hw <;> simp [warnings] at hw
    | None => rw [hm] at hw; simp [warnings] at hw
    | Id3Tag => left; simp [ha]
    | unrecognised v => right; simp [ha]
  · rw [save_step_of_not_gate env d src hg] at hw
    simp [warnings] at hw

/-! ## The claims -/

/-- C1: if the source at position `i` answers non-empty text, no query is made
in any loop iteration after `i`, for every list of sources, every assignment
of outcomes to them and every timing of cancellation; queries are made in
strictly increasing order of position, each to the source configured at its
position. -/
theorem C1_first_success_wins (env : Env) (sources : List LyricSourceBase) (i : Nat)
    (s : LyricSourceBase) (r : LyricDataRaw)
    (hs : sources[i]? = some s) (hq : s.query = .returns r) (hr : r.text ≠ []) :
    (∀ q ∈ queries (run_async env sources).trace, q.1 ≤ i) ∧
    (queried (run_async env sources).trace).Pairwise (· < ·) ∧
    (∀ q ∈ queries (run_async env sources).trace,
      ∃ s', sources[q.1]? = some s' ∧ s'.id = q.2) := by
  rw [queried, run_async_queries]
  refine ⟨fun q hmem => ?_, ?_, fun q hmem => ?_⟩
  · have := search_loop_first_success env sources 0 false { source_id := 0, text := [] }
      i s r hs hq hr q.1 (List.mem_map_of_mem Prod.fst hmem)
    omega
  · exact search_loop_queried_sorted env sources 0 false _
  · obtain ⟨_, s', h1, h2⟩ :=
      search_loop_queries env sources 0 false { source_id := 0, text := [] } q hmem
    exact ⟨s', by simpa using h1, h2⟩

/-- C1 instantiated: with sources A (throws), B (empty), C (non-empty), B, the
source at position 2 answers non-empty text and nothing after it is queried. -/
theorem C1_first_success_wins_witness :
    [source_A, source_B, source_C, source_B][2]? = some source_C ∧
    ∀ q ∈ queries (run_async sample_env [source_A, source_B, source_C, source_B]).trace,
      q.1 ≤ 2 :=
  ⟨rfl, (C1_first_success_wins sample_env [source_A, source_B, source_C, source_B] 2 source_C
    { source_id := 3, text := ['a', '\n', 'b'] } rfl rfl (by decide)).1⟩

/-- C2: let source `i` be the first in priority order whose query returns
non-empty text: it answers non-empty text, every source before it throws or
returns empty text, and no abort request is seen up to iteration `i`. Then
any record the run publishes is the Format Adapter's parse of that source's
raw result, with its source_id and its text after newline normalisation,
whatever the earlier sources did; the run publishes it (and `get_result()`
then yields it) whenever it returns, which it does as soon as the save step
meets no live `assert(false)` and no error from `SaveLyrics` that is not a
`std::exception`. If no source's query returns non-empty text, the run
returns normally (no error escapes) and publishes the empty record. -/
theorem C2_published_record (env : Env) (sources : List LyricSourceBase) :
    (∀ i s r, sources[i]? = some s → s.query = .returns r → r.text ≠ [] →
      (∀ j < i, ∀ s' r', sources[j]? = some s' → s'.query = .returns r' → r'.text = []) →
      (∀ j ≤ i, env.abort_requested j = false) →
      ∃ text, ensure_windows_newlines r.text = some text ∧
        (∀ d ∈ published (run_async env sources).trace,
          d = env.parse { source_id := r.source_id, text := text }) ∧
        ((run_async env sources).termination = .returned →
          published (run_async env sources).trace
            = [env.parse { source_id := r.source_id, text := text }] ∧
          (LyricSearch.after (run_async env sources).trace).get_result
            = some (env.parse { source_id := r.source_id, text := text })) ∧
        ((env.asserts_enabled = false ∨ env.save_method = .None ∨
            env.save_method = .ConfigDirectory) →
          (∀ b t, env.SaveLyrics b t ≠ some .unrecognised) →
          (run_async env sources).termination = .returned)) ∧
    ((∀ i s r, sources[i]? = some s → s.query = .returns r → r.text ≠ [] →
        ∃ j ≤ i, env.abort_requested j = true) →
      (run_async env sources).termination = .returned ∧
      published (run_async env sources).trace = [LyricData.empty] ∧
      LyricData.empty.IsEmpty = true ∧
      (LyricSearch.after (run_async env sources).trace).get_result = some LyricData.empty) := by
  constructor
  · intro i s r hs hq hr hbefore hab
    obtain ⟨_, hw⟩ := search_finds env sources i s r hs hq hr hbefore hab
    refine ⟨insert_missing_cr false r.text, ensure_windows_newlines_eq _, ?_, ?_, ?_⟩
    · rw [← hw]
      exact (run_async_at_most_once env sources).2.2.1
    · intro hret
      obtain ⟨_, h2, _, pre, h4, h5, _⟩ :=
        run_async_returned env sources ((run_async_returned_iff env sources).mp hret)
      rw [← hw]
      refine ⟨h2, ?_⟩
      rw [h4]
      exact get_result_final pre _ h5
    · intro hassert hsave
      exact (run_async_returned_iff env sources).mpr
        (save_step_completes env _ _ hassert hsave)
  · intro h
    obtain ⟨_, hterm, hpub, _, pre, htrace, hpre, _⟩ := run_async_nothing_found env sources h
    refine ⟨hterm, hpub, rfl, ?_⟩
    rw [htrace]
    exact get_result_final pre _ hpre

/-- C2 instantiated: sources A (throws), B (returns empty text) and C (returns
`"a\nb"` under source_id 3); the published record is the parse of C's result
with the text normalised to `"a\r\nb"`, and it carries C's source_id. -/
theorem C2_published_record_witness :
    published (run_async sample_env [source_A, source_B, source_C]).trace
      = [sample_parse { source_id := 3, text := ['a', '\r', '\n', 'b'] }] ∧
    (sample_parse { source_id := 3, text := ['a', '\r', '\n', 'b'] }).source_id
      = source_C.id := by
  obtain ⟨text, h1, _, h3, h4⟩ :=
    (C2_published_record sample_env [source_A, source_B, source_C]).1 2 source_C
      { source_id := 3, text := ['a', '\n', 'b'] } rfl rfl (by decide)
      (by
        intro j hj s' r' hs' hq'
        have hj' : j = 0 ∨ j = 1 := by omega
        rcases hj' with rfl | rfl
        · simp only [List.getElem?_cons_zero, Option.some.injEq] at hs'
          subst hs'
          simp [source_A] at hq'
        · simp only [List.getElem?_cons_succ, List.getElem?_cons_zero, Option.some.injEq] at hs'
          subst hs'
          simp only [source_B, QueryOutcome.returns.injEq] at hq'
          rw [← hq'])
      (fun _ _ => rfl)
  have ht : text = ['a', '\r', '\n', 'b'] := by
    have h : ensure_windows_newlines ['a', '\n', 'b'] = some ['a', '\r', '\n', 'b'] := by decide
    rw [h] at h1
    exact (Option.some.inj h1).symm
  subst ht
  exact ⟨(h3 (h4 (Or.inr (Or.inr rfl)) (fun _ _ => by simp [sample_env]))).1, rfl⟩

/-- C3, the claim as stated fails at two inputs, in both of which a remote
source answers non-empty text and autosave is on. (a) Assertions live and
save method tag-embedding: the worker runs into `assert(false)` on line 153.
(b) Save method config-directory and `SaveLyrics` throwing an object that is
not a `std::exception`: the exception leaves `run_async`. In both runs
nothing is published and completion is not signalled. -/
theorem C3_counterexample :
    ((run_async { sample_env with save_method := .Id3Tag } [source_C]).termination
        = .assertion_failed 153 ∧
      ¬ ((published (run_async { sample_env with save_method := .Id3Tag }
            [source_C]).trace).length = 1 ∧
        completions (run_async { sample_env with save_method := .Id3Tag }
            [source_C]).trace = 1)) ∧
    ((run_async { sample_env with SaveLyrics := fun _ _ => some .unrecognised }
        [source_C]).termination = .uncaught .unrecognised ∧
      ¬ ((published (run_async { sample_env with SaveLyrics := fun _ _ => some .unrecognised }
            [source_C]).trace).length = 1 ∧
        completions (run_async { sample_env with SaveLyrics := fun _ _ => some .unrecognised }
            [source_C]).trace = 1)) := by
  decide

/-- C3 as amended: in every run, whatever the sources do, there is at most one
publication and at most one completion signal, and the slot is null before
the worker starts. Every run that meets no live `assert(false)` (assertions
are compiled out, or the run logs no warning: both asserts directly follow a
`LOG_WARN`) and in which no call of `SaveLyrics` that is made throws an
object other than a `std::exception` publishes exactly one record and signals
completion exactly once, `get_result()` being null before the publication and
the published record after it. In particular this holds, with no condition at
all, when every source throws (an error of any type) or returns empty text.
With assertions live, a run that logs a warning stops in the `assert(false)`
that follows it (line 153 or 160), publishing and signalling nothing. -/
theorem C3_publishes_exactly_once (env : Env) (sources : List LyricSourceBase) :
    ((published (run_async env sources).trace).length ≤ 1 ∧
      completions (run_async env sources).trace ≤ 1 ∧
      LyricSearch.init.get_result = none) ∧
    ((env.asserts_enabled = false ∨ warnings (run_async env sources).trace = []) →
      (∀ c ∈ saves (run_async env sources).trace,
        env.SaveLyrics c.1 c.2 ≠ some .unrecognised) →
      ∃ d, publishes_once (run_async env sources) d) ∧
    ((∀ s ∈ sources, ∀ r, s.query = .returns r → r.text = []) →
      publishes_once (run_async env sources) LyricData.empty) ∧
    (env.asserts_enabled = true → warnings (run_async env sources).trace ≠ [] →
      ((run_async env sources).termination = .assertion_failed 153 ∨
        (run_async env sources).termination = .assertion_failed 160) ∧
      published (run_async env sources).trace = [] ∧
      completions (run_async env sources).trace = 0) := by
  refine ⟨⟨(run_async_at_most_once env sources).1, (run_async_at_most_once env sources).2.1,
    rfl⟩, ?_, ?_, ?_⟩
  · intro hassert hsave
    rw [run_async_warnings] at hassert
    rw [run_async_saves] at hsave
    exact ⟨_, publishes_once_of_returned env sources
      (save_step_completes_of_run env _ _ hassert hsave)⟩
  · intro hall
    have hnone : ∀ i s r, sources[i]? = some s → s.query = .returns r → r.text ≠ [] →
        ∃ j ≤ i, env.abort_requested j = true := by
      intro i s r hs hq hr
      exact absurd (hall s (List.getElem?_mem hs) r hq) hr
    obtain ⟨_, h2⟩ := search_finds_nothing env sources hnone
    have hstep : (save_step env (working_record env sources)
        (search env sources).success_source).2 = none := by
      rw [h2, save_step_of_not_gate env _ _ (not_save_gate_empty env _)]
    have := publishes_once_of_returned env sources hstep
    rwa [h2] at this
  · intro ha hw
    rw [run_async_warnings] at hw
    rcases save_step_assert env _ _ ha hw with h | h
    · obtain ⟨h1, h2, h3⟩ := run_async_escaped env sources _ h
      exact ⟨Or.inl h1, h2, h3⟩
    · obtain ⟨h1, h2, h3⟩ := run_async_escaped env sources _ h
      exact ⟨Or.inr h1, h2, h3⟩

/-- C3 as amended, instantiated at four runs with assertions live. Save method
tag-embedding with autosave off and a source that succeeds: no warning, no
save, one publication. Save method none with a `SaveLyrics` that would throw
an unrecognised object but is never called: one publication. Config-directory
with a save that is called and succeeds: one publication. Every source
throwing or returning empty text under tag-embedding: the empty record is
published once. -/
theorem C3_publishes_exactly_once_witness :
    (∃ d, publishes_once (run_async
      { sample_env with save_method := .Id3Tag, autosave_enabled := false } [source_C]) d) ∧
    (∃ d, publishes_once (run_async
      { sample_env with save_method := .None, SaveLyrics := fun _ _ => some .unrecognised }
      [source_C]) d) ∧
    (∃ d, publishes_once (run_async sample_env [source_A, source_C]) d) ∧
    publishes_once (run_async { sample_env with save_method := .Id3Tag }
      [source_A, source_B]) LyricData.empty :=
  ⟨(C3_publishes_exactly_once
      { sample_env with save_method := .Id3Tag, autosave_enabled := false } [source_C]).2.1
      (Or.inr (by decide))
      (by
        have h : saves (run_async
            { sample_env with save_method := .Id3Tag, autosave_enabled := false }
            [source_C]).trace = [] := by decide
        intro c hc
        rw [h] at hc
        exact absurd hc (List.not_mem_nil c)),
    (C3_publishes_exactly_once
      { sample_env with save_method := .None, SaveLyrics := fun _ _ => some .unrecognised }
      [source_C]).2.1
      (Or.inr (by decide))
      (by
        have h : saves (run_async
            { sample_env with save_method := .None,
                              SaveLyrics := fun _ _ => some .unrecognised }
            [source_C]).trace = [] := by decide
        intro c hc
        rw [h] at hc
        exact absurd hc (List.not_mem_nil c)),
    (C3_publishes_exactly_once sample_env [source_A, source_C]).2.1
      (Or.inr (by decide)) (fun _ _ => by simp [sample_env]),
    (C3_publishes_exactly_once { sample_env with save_method := .Id3Tag }
      [source_A, source_B]).2.2.1
      (by
        intro s hs r hq
        simp only [List.mem_cons, List.mem_singleton, List.not_mem_nil, or_false] at hs
        rcases hs with rfl | rfl
        · simp [source_A] at hq
        · simp only [source_B, QueryOutcome.returns.injEq] at hq
          rw [← hq])⟩

/-- C4: once an abort request has been seen by the check of iteration `k`, no
query is made in iteration `k` or any later one. In particular, when the
request precedes the first check, no source is queried at all, the worker
returns normally, the record it publishes is the empty record, and completion
is signalled (once). -/
theorem C4_cancellation_stops_queries (env : Env) (sources : List LyricSourceBase) :
    (∀ k, env.abort_requested k = true →
      ∀ q ∈ queries (run_async env sources).trace, q.1 < k) ∧
    (env.abort_requested 0 = true →
      queries (run_async env sources).trace = [] ∧
      (run_async env sources).termination = .returned ∧
      published (run_async env sources).trace = [LyricData.empty] ∧
      LyricData.empty.IsEmpty = true ∧
      completions (run_async env sources).trace = 1 ∧
      (LyricSearch.after (run_async env sources).trace).get_result = some LyricData.empty ∧
      (LyricSearch.after (run_async env sources).trace).m_complete = true) := by
  have hfirst : ∀ k, env.abort_requested k = true →
      ∀ q ∈ queries (run_async env sources).trace, q.1 < k := by
    intro k hk q hmem
    rw [run_async_queries] at hmem
    have := search_loop_after_abort env sources 0 false { source_id := 0, text := [] } k
      (by simpa using hk) q.1 (List.mem_map_of_mem Prod.fst hmem)
    omega
  refine ⟨hfirst, fun h0 => ?_⟩
  obtain ⟨_, hterm, hpub, hcompl, pre, htrace, hpre, _⟩ :=
    run_async_nothing_found env sources (fun i s r _ _ _ => ⟨0, Nat.zero_le _, h0⟩)
  refine ⟨?_, hterm, hpub, rfl, hcompl, ?_, ?_⟩
  · apply List.eq_nil_iff_forall_not_mem.mpr
    intro q hmem
    have := hfirst 0 h0 q hmem
    omega
  · rw [htrace]
    exact get_result_final pre _ hpre
  · rw [htrace]
    exact m_complete_final pre _

/-- C4 instantiated: cancellation requested before the first check, with a
source that would have answered non-empty text. -/
theorem C4_cancellation_stops_queries_witness :
    queries (run_async { sample_env with abort_requested := fun _ => true }
      [source_C, source_A]).trace = [] ∧
    published (run_async { sample_env with abort_requested := fun _ => true }
      [source_C, source_A]).trace = [LyricData.empty] :=
  have h := (C4_cancellation_stops_queries { sample_env with abort_requested := fun _ => true }
    [source_C, source_A]).2 rfl
  ⟨h.1, h.2.2.1⟩

/-- C5: `SaveLyrics` is called exactly when the parsed record is non-empty,
autosave is enabled, a source succeeded, that source is not local-only and
the save method is config-directory. It is then called exactly once, with
`(true, shrink_text(record))` when the record is timestamped and with
`(false, record.text)` when it is not. Here the parsed record is the parse of
the raw result of the first source whose query returns non-empty text; when
there is no such source, `SaveLyrics` is not called. -/
theorem C5_save_invocation (env : Env) (sources : List LyricSourceBase) :
    (∀ i s r, sources[i]? = some s → s.query = .returns r → r.text ≠ [] →
      (∀ j < i, ∀ s' r', sources[j]? = some s' → s'.query = .returns r' → r'.text = []) →
      (∀ j ≤ i, env.abort_requested j = false) →
      ∃ text, ensure_windows_newlines r.text = some text ∧
        (((env.parse { source_id := r.source_id, text := text }).IsEmpty = false ∧
            env.autosave_enabled = true ∧ s.is_local = false ∧
            env.save_method = .ConfigDirectory) →
          ((env.parse { source_id := r.source_id, text := text }).IsTimestamped = true →
            saves (run_async env sources).trace
              = [(true, env.shrink_text (env.parse { source_id := r.source_id, text := text }))]) ∧
          ((env.parse { source_id := r.source_id, text := text }).IsTimestamped = false →
            saves (run_async env sources).trace
              = [(false, (env.parse { source_id := r.source_id, text := text }).text)])) ∧
        (¬ ((env.parse { source_id := r.source_id, text := text }).IsEmpty = false ∧
            env.autosave_enabled = true ∧ s.is_local = false ∧
            env.save_method = .ConfigDirectory) →
          saves (run_async env sources).trace = [])) ∧
    ((∀ i s r, sources[i]? = some s → s.query = .returns r → r.text ≠ [] →
        ∃ j ≤ i, env.abort_requested j = true) →
      saves (run_async env sources).trace = []) := by
  constructor
  · intro i s r hs hq hr hbefore hab
    obtain ⟨hsrc, hw⟩ := search_finds env sources i s r hs hq hr hbefore hab
    refine ⟨insert_missing_cr false r.text, ensure_windows_newlines_eq _, ?_, ?_⟩
    · rintro ⟨h1, h2, h3, h4⟩
      have hg : save_gate env (working_record env sources) (search env sources).success_source := by
        rw [hw, hsrc]
        exact ⟨h1, h2, s, rfl, h3⟩
      have := save_step_saves env _ _ hg h4
      rw [← run_async_saves, hw] at this
      constructor
      · intro hts
        rw [this, hts]
        simp
      · intro hts
        rw [this, hts]
        simp
    · intro hn
      rw [run_async_saves]
      apply save_step_no_saves
      rintro ⟨⟨h1, h2, s', h3, h4⟩, h5⟩
      rw [hsrc] at h3
      simp only [Option.some.injEq] at h3
      subst h3
      rw [hw] at h1
      exact hn ⟨h1, h2, h4, h5⟩
  · intro h
    exact (run_async_nothing_found env sources h).1

/-- C5 instantiated: autosave on, config-directory, the remote source C
succeeds. With a timestamped record `SaveLyrics` is called once, with `true`
and the shrunk text (here the text without its `'\r'`), not the normalised
text; with a record without timestamps it is called once, with `false` and the
record's normalised text. -/
theorem C5_save_invocation_witness :
    saves (run_async sample_env [source_A, source_C]).trace = [(true, ['a', '\n', 'b'])] ∧
    saves (run_async { sample_env with parse := sample_parse_plain }
      [source_A, source_C]).trace = [(false, ['a', '\r', '\n', 'b'])] := by
  have hbefore : ∀ j < 1, ∀ (s' : LyricSourceBase) (r' : LyricDataRaw),
      [source_A, source_C][j]? = some s' → s'.query = .returns r' → r'.text = [] := by
    intro j hj s' r' hs' hq'
    have hj' : j = 0 := by omega
    subst hj'
    simp only [List.getElem?_cons_zero, Option.some.injEq] at hs'
    subst hs'
    simp [source_A] at hq'
  have hnorm : ensure_windows_newlines ['a', '\n', 'b'] = some ['a', '\r', '\n', 'b'] := by
    decide
  constructor
  · obtain ⟨text, h1, h2, _⟩ :=
      (C5_save_invocation sample_env [source_A, source_C]).1 1 source_C
        { source_id := 3, text := ['a', '\n', 'b'] } rfl rfl (by decide) hbefore
        (fun _ _ => rfl)
    have ht : text = ['a', '\r', '\n', 'b'] := by
      rw [hnorm] at h1
      exact (Option.some.inj h1).symm
    subst ht
    exact (h2 ⟨by decide, rfl, rfl, rfl⟩).1 (by decide)
  · obtain ⟨text, h1, h2, _⟩ :=
      (C5_save_invocation { sample_env with parse := sample_parse_plain }
        [source_A, source_C]).1 1 source_C
        { source_id := 3, text := ['a', '\n', 'b'] } rfl rfl (by decide) hbefore
        (fun _ _ => rfl)
    have ht : text = ['a', '\r', '\n', 'b'] := by
      rw [hnorm] at h1
      exact (Option.some.inj h1).symm
    subst ht
    exact (h2 ⟨by decide, rfl, rfl, rfl⟩).2 (by decide)

/-- C6, the claim as stated fails: with assertions live, save method
tag-embedding and autosave on, a remote source that answers non-empty text
leads the worker into `assert(false)` on line 153 right after the warning;
nothing is published, whereas under save method none the record is. -/
theorem C6_counterexample :
    (run_async { sample_env with save_method := .Id3Tag } [source_A, source_C]).termination
      = .assertion_failed 153 ∧
    warnings (run_async { sample_env with save_method := .Id3Tag }
      [source_A, source_C]).trace = [152] ∧
    published (run_async { sample_env with save_method := .None } [source_A, source_C]).trace
      = [sample_parse { source_id := 3, text := ['a', '\r', '\n', 'b'] }] ∧
    ¬ (published (run_async { sample_env with save_method := .Id3Tag }
          [source_A, source_C]).trace
        = published (run_async { sample_env with save_method := .None }
          [source_A, source_C]).trace) := by
  decide

/-- C6 as amended: under save method tag-embedding `SaveLyrics` is never
called. When assertions are compiled out, or when no warning is logged (the
save branch is not reached), the worker publishes exactly once and signals
completion, with the very record it publishes under save method none, the
only warning, if any, being the one on line 152. When assertions are live
and the warning is logged, the worker stops in `assert(false)` on line 153
without publishing. -/
theorem C6_tag_embedding (env : Env) (sources : List LyricSourceBase)
    (hm : env.save_method = .Id3Tag) :
    saves (run_async env sources).trace = [] ∧
    ((env.asserts_enabled = false ∨ warnings (run_async env sources).trace = []) →
      (∃ d, publishes_once (run_async env sources) d ∧
        publishes_once (run_async { env with save_method := .None } sources) d) ∧
      (warnings (run_async env sources).trace = [] ∨
        warnings (run_async env sources).trace = [152])) ∧
    (env.asserts_enabled = true → warnings (run_async env sources).trace ≠ [] →
      (run_async env sources).termination = .assertion_failed 153 ∧
      warnings (run_async env sources).trace = [152] ∧
      published (run_async env sources).trace = [] ∧
      completions (run_async env sources).trace = 0) := by
  obtain ⟨_, hrec⟩ := working_record_congr env { env with save_method := .None }
    rfl rfl sources
  have hnone : publishes_once (run_async { env with save_method := .None } sources)
      (working_record env sources) := by
    rw [hrec]
    apply publishes_once_of_returned
    rw [save_step_method_none _ _ _ rfl]
  have hsaves : saves (run_async env sources).trace = [] := by
    rw [run_async_saves]
    apply save_step_no_saves
    rintro ⟨_, h⟩
    rw [hm] at h
    exact absurd h (by simp)
  refine ⟨hsaves, ?_⟩
  by_cases hg : save_gate env (working_record env sources) (search env sources).success_source
  · have hstep := save_step_method_id3tag env _ _ hm hg
    have hw : warnings (run_async env sources).trace = [152] := by
      rw [run_async_warnings, hstep]
      rfl
    constructor
    · intro h
      have ha : env.asserts_enabled = false := by
        rcases h with h | h
        · exact h
        · rw [hw] at h
          simp at h
      refine ⟨⟨_, publishes_once_of_returned env sources ?_, hnone⟩, Or.inr hw⟩
      rw [hstep, ha]
      rfl
    · intro ha _
      obtain ⟨h1, h2, h3⟩ := run_async_escaped env sources (.assertion_failed 153)
        (by rw [hstep, ha]; rfl)
      exact ⟨h1, hw, h2, h3⟩
  · have hstep := save_step_of_not_gate env _ _ hg
    have hw : warnings (run_async env sources).trace = [] := by
      rw [run_async_warnings, hstep]
      rfl
    constructor
    · intro _
      refine ⟨⟨_, publishes_once_of_returned env sources ?_, hnone⟩, Or.inl hw⟩
      rw [hstep]
    · intro _ h
      exact absurd hw h

/-- C6 as amended, instantiated: tag-embedding with assertions compiled out;
the worker publishes the record it publishes under save method none. -/
theorem C6_tag_embedding_witness :
    ∃ d, publishes_once (run_async
        { sample_env with save_method := .Id3Tag, asserts_enabled := false }
        [source_A, source_C]) d ∧
      publishes_once (run_async
        { sample_env with save_method := .None, asserts_enabled := false }
        [source_A, source_C]) d :=
  ((C6_tag_embedding { sample_env with save_method := .Id3Tag, asserts_enabled := false }
    [source_A, source_C] rfl).2.1 (Or.inl rfl)).1

/-- C7, the code at the failing input: autosave on, config-directory, the
remote source C succeeds, and `SaveLyrics` throws an object that is not a
`std::exception`. `SaveLyrics` is called, the exception passes the only
handler `catch(const std::exception&)` and leaves `run_async`: nothing is
published and completion is not signalled, whereas the same run with a save
that succeeds publishes the parsed record. -/
theorem C7_save_failure_escapes :
    saves (run_async { sample_env with SaveLyrics := fun _ _ => some .unrecognised }
      [source_C]).trace = [(true, ['a', '\n', 'b'])] ∧
    (run_async { sample_env with SaveLyrics := fun _ _ => some .unrecognised }
      [source_C]).termination = .uncaught .unrecognised ∧
    published (run_async { sample_env with SaveLyrics := fun _ _ => some .unrecognised }
      [source_C]).trace = [] ∧
    completions (run_async { sample_env with SaveLyrics := fun _ _ => some .unrecognised }
      [source_C]).trace = 0 ∧
    published (run_async sample_env [source_C]).trace
      = [sample_parse { source_id := 3, text := ['a', '\r', '\n', 'b'] }] := by
  decide

/-- A failure of `SaveLyrics` that is a `std::exception` is contained: the run
publishes exactly once, the very record it publishes when every call of
`SaveLyrics` succeeds. -/
theorem save_failure_std_exception_contained (env : Env) (sources : List LyricSourceBase)
    (hm : env.save_method = .ConfigDirectory)
    (hsave : ∀ b t, env.SaveLyrics b t ≠ some .unrecognised) :
    ∃ d, publishes_once (run_async env sources) d ∧
      publishes_once (run_async { env with SaveLyrics := fun _ _ => none } sources) d := by
  obtain ⟨_, hrec⟩ := working_record_congr env { env with SaveLyrics := fun _ _ => none }
    rfl rfl sources
  refine ⟨working_record env sources, ?_, ?_⟩
  · exact publishes_once_of_returned env sources
      (save_step_completes env _ _ (Or.inr (Or.inr hm)) hsave)
  · rw [hrec]
    exact publishes_once_of_returned _ sources
      (save_step_completes _ _ _ (Or.inr (Or.inr hm)) (fun _ _ => by simp))

/-- C8: moving a record, by move-assignment onto any other record or by
move-construction, leaves the source record equal to the empty record
(`IsEmpty()` true, `source_id` zero, `text` cleared, owning no buffer) and
gives the destination the source_id, text, tags and lines of the source, the
lines being the very same entries in the same order, so that the destination
owns exactly the buffers the source owned. -/
theorem C8_move_transfers_record (this other : LyricData) (indeterminate : GUID) :
    ((LyricData.move_assign this other).2 = LyricData.empty ∧
      (LyricData.move_assign this other).2.IsEmpty = true ∧
      (LyricData.move_assign this other).2.source_id = 0 ∧
      (LyricData.move_assign this other).2.text = [] ∧
      (LyricData.move_assign this other).2.owned_buffers = [] ∧
      (LyricData.move_assign this other).1.source_id = other.source_id ∧
      (LyricData.move_assign this other).1.text = other.text ∧
      (LyricData.move_assign this other).1.tags = other.tags ∧
      (LyricData.move_assign this other).1.lines = other.lines ∧
      (LyricData.move_assign this other).1.owned_buffers = other.owned_buffers) ∧
    ((LyricData.move_construct indeterminate other).2 = LyricData.empty ∧
      (LyricData.move_construct indeterminate other).2.IsEmpty = true ∧
      (LyricData.move_construct indeterminate other).2.source_id = 0 ∧
      (LyricData.move_construct indeterminate other).2.text = [] ∧
      (LyricData.move_construct indeterminate other).2.owned_buffers = [] ∧
      (LyricData.move_construct indeterminate other).1.source_id = other.source_id ∧
      (LyricData.move_construct indeterminate other).1.text = other.text ∧
      (LyricData.move_construct indeterminate other).1.tags = other.tags ∧
      (LyricData.move_construct indeterminate other).1.lines = other.lines ∧
      (LyricData.move_construct indeterminate other).1.owned_buffers = other.owned_buffers) := by
  refine ⟨⟨rfl, rfl, rfl, rfl, rfl, rfl, rfl, rfl, rfl, rfl⟩,
    ⟨rfl, rfl, rfl, rfl, rfl, rfl, rfl, rfl, rfl, rfl⟩⟩

/-- C9: `IsTimestamped()` is true exactly when the record has a first line
whose timestamp is not `DBL_MAX`; `IsEmpty()` is true exactly when the record
has no lines, whatever its text; hence `IsTimestamped()` implies that
`IsEmpty()` is false. -/
theorem C9_timestamped_iff_empty_iff (d : LyricData) :
    (d.IsTimestamped = true ↔ ∃ line rest, d.lines = line :: rest ∧ line.timestamp ≠ DBL_MAX) ∧
    (d.IsEmpty = true ↔ d.lines = []) ∧
    (∀ text : CppString, ({ d with text := text } : LyricData).IsEmpty = d.IsEmpty) ∧
    (d.IsTimestamped = true → d.IsEmpty = false) := by
  refine ⟨?_, ?_, ?_, ?_⟩
  · cases hl : d.lines with
    | nil => simp [LyricData.IsTimestamped, hl]
    | cons line rest => simp [LyricData.IsTimestamped, hl, double_ne_DBL_MAX]
  · simp [LyricData.IsEmpty]
  · intro text; rfl
  · cases hl : d.lines with
    | nil => simp [LyricData.IsTimestamped, hl]
    | cons line rest => simp [LyricData.IsEmpty, hl]

/-- C9 instantiated: a record with one line of timestamp `0.0` and empty text
is timestamped and therefore not empty. -/
theorem C9_timestamped_iff_empty_iff_witness :
    (sample_parse { source_id := 3, text := [] }).IsTimestamped = true ∧
    (sample_parse { source_id := 3, text := [] }).IsEmpty = false :=
  ⟨by decide, (C9_timestamped_iff_empty_iff _).2.2.2 (by decide)⟩

/-- C10: `ensure_windows_newlines` reaches its `break` on every input (any
fuel of at least twice the number of newlines plus one suffices, and the
fuel the function is given does) and returns the input with one `'\r'` put in
front of each `'\n'` that did not already follow a `'\r'`; the input is a
subsequence of the output and the two agree once every `'\r'` is dropped. In
the output every `'\n'` immediately follows a `'\r'`; an input already of
that form, the empty string included, is returned unchanged; normalising
twice is the same as normalising once. -/
theorem C10_ensure_windows_newlines (str : CppString) :
    (∀ fuel, 2 * str.count '\n' + 1 ≤ fuel →
      ensure_windows_newlines_loop fuel str 0 = some (insert_missing_cr false str)) ∧
    ensure_windows_newlines str = some (insert_missing_cr false str) ∧
    str.Sublist (insert_missing_cr false str) ∧
    (insert_missing_cr false str).filter (fun c => c != '\r')
      = str.filter (fun c => c != '\r') ∧
    windows_newlines (insert_missing_cr false str) ∧
    (windows_newlines str → ensure_windows_newlines str = some str) ∧
    ensure_windows_newlines [] = some [] ∧
    (ensure_windows_newlines str).bind ensure_windows_newlines
      = ensure_windows_newlines str := by
  have hform : windows_newlines (insert_missing_cr false str) :=
    (windows_newlines_iff _).mpr (newlines_ok_insert_missing_cr str false)
  refine ⟨?_, ensure_windows_newlines_eq str, insert_missing_cr_sublist str false,
    insert_missing_cr_filter str false, hform, ?_, ?_, ?_⟩
  · intro fuel hf
    simpa using ensure_windows_newlines_loop_eq str [] fuel hf
  · intro h
    rw [ensure_windows_newlines_eq,
      insert_missing_cr_of_ok str false ((windows_newlines_iff str).mp h)]
  · rw [ensure_windows_newlines_eq]; rfl
  · rw [ensure_windows_newlines_eq, Option.some_bind, ensure_windows_newlines_eq,
      insert_missing_cr_of_ok _ false ((windows_newlines_iff _).mp hform)]

/-- C10 instantiated: the text `"a\r\nb"` already has Windows newlines and is
returned unchanged. -/
theorem C10_ensure_windows_newlines_witness :
    windows_newlines ['a', '\r', '\n', 'b'] ∧
    ensure_windows_newlines ['a', '\r', '\n', 'b'] = some ['a', '\r', '\n', 'b'] ∧
    ensure_windows_newlines_loop 3 ['a', '\r', '\n', 'b'] 0
      = some (insert_missing_cr false ['a', '\r', '\n', 'b']) :=
  have h : windows_newlines ['a', '\r', '\n', 'b'] :=
    (windows_newlines_iff _).mpr (by decide)
  ⟨h, (C10_ensure_windows_newlines ['a', '\r', '\n', 'b']).2.2.2.2.2.1 h,
    (C10_ensure_windows_newlines ['a', '\r', '\n', 'b']).1 3 (by decide)⟩

end OpenLyrics
